import Mathlib

set_option maxHeartbeats 1000000

/-!
Shallow embedding of the expression engine of `src/timecalc.py`
(class `AdvancedTimeCalculator`), together with theorems settling the
frozen claims about its specification.

Modelling conventions:
* a Python `datetime` is represented by its rational number of seconds
  since the sentinel epoch `1900-01-01 00:00:00` (the date used by the
  program for "time-only" instants);
* a Python `timedelta` is represented by its rational number of seconds;
* Python `float` arithmetic is modelled by exact rational arithmetic;
  the non-finite literals `inf`/`nan` and underscore digit separators of
  `float(...)` are outside the rational model and are not represented;
* each `datetime.now()` call site is modelled by reading a clock stream
  `c : ℕ → ℚ` at a running read counter, which every effectful function
  threads through explicitly;
* a raised Python exception is an `err` result carrying the message
  (for a few messages the interpolated run-time values are elided).
-/

namespace Timecalc

abbrev Clock := ℕ → ℚ

/-- Python `\s` / `str.strip()` whitespace (ASCII range). -/
def pyWs (c : Char) : Bool :=
  c = ' ' || c = '\t' || c = '\n' || c = '\r' || c = '\x0b' || c = '\x0c'

def pyStripList (cs : List Char) : List Char :=
  ((cs.dropWhile pyWs).reverse.dropWhile pyWs).reverse

/-- Python `str.strip()`. -/
def pyStrip (s : String) : String :=
  String.mk (pyStripList s.toList)

/-- Python `str.lower()` (ASCII). -/
def pyLower (s : String) : String :=
  String.mk (s.toList.map Char.toLower)

/-- Python `str.upper()` (ASCII). -/
def pyUpper (s : String) : String :=
  String.mk (s.toList.map Char.toUpper)

def listStartsWith : List Char → List Char → Bool
  | [], _ => true
  | _ :: _, [] => false
  | n :: ns, h :: hs => n = h && listStartsWith ns hs

/-- `needle in hay` / `hay.find(needle) != -1` for Python strings. -/
def listContainsSub (needle : List Char) : List Char → Bool
  | [] => listStartsWith needle []
  | c :: r => listStartsWith needle (c :: r) || listContainsSub needle r

def containsSub (hay needle : String) : Bool :=
  listContainsSub needle.toList hay.toList

/-- Digit value of an ASCII digit. -/
def dv (c : Char) : ℕ := c.toNat - '0'.toNat

def natOfDigits (ds : List Char) : ℕ :=
  ds.foldl (fun a c => a * 10 + dv c) 0

/-- Value of the digit list read as a fraction `0.d₁d₂…`. -/
def fracOfDigits (ds : List Char) : ℚ :=
  (natOfDigits ds : ℚ) / (10 : ℚ) ^ ds.length

/-- Result of a parser producing a number of seconds (or bytes). -/
inductive QRes
  | ok (q : ℚ)
  | err (msg : String)
  deriving DecidableEq, Repr

/-- A parsed operand value: `datetime`, `timedelta` or `float`. -/
inductive Val
  | instant (t : ℚ)
  | duration (secs : ℚ)
  | scalar (x : ℚ)
  deriving DecidableEq, Repr

/-- Result of evaluating an operand or an arithmetic expression. -/
inductive VRes
  | ok (v : Val)
  | err (msg : String)
  deriving DecidableEq, Repr

/-- The dict returned by `calculate_data_rate`. -/
structure RateInfo where
  totalTime : ℚ
  transferRate : ℚ
  elapsedTime : ℚ
  dataAmount : ℚ
  totalData : ℚ
  deriving DecidableEq, Repr

/-- Result of `parse_and_calculate`: a value, a rate dict, or an exception. -/
inductive EvalResult
  | okV (v : Val)
  | okRate (r : RateInfo)
  | err (msg : String)
  deriving DecidableEq, Repr

/-! ### Python `float(text)` (`is_number` / scalar parsing) -/

/-- Optional exponent part `[eE][+-]?digits` returning the scale factor;
`none` on a malformed exponent, `some 1` when no exponent is present. -/
def pyFloatExp : List Char → Option ℚ
  | [] => some 1
  | 'e' :: r => pyFloatExpTail r
  | 'E' :: r => pyFloatExpTail r
  | _ => none
where
  pyFloatExpTail (r : List Char) : Option ℚ :=
    let (sgn, r₂) : Bool × List Char :=
      match r with
      | '+' :: t => (false, t)
      | '-' :: t => (true, t)
      | t => (false, t)
    let ds := r₂.takeWhile Char.isDigit
    if ds = [] ∨ r₂.drop ds.length ≠ [] then none
    else if sgn then some (1 / (10 : ℚ) ^ natOfDigits ds)
    else some ((10 : ℚ) ^ natOfDigits ds)

/-- Python `float(text)` on finite decimal literals; `none` when `float`
would raise `ValueError` (`inf`/`nan`/underscores are not modelled). -/
def pyFloat? (s : String) : Option ℚ :=
  let cs := pyStripList s.toList
  let (neg, cs₁) : Bool × List Char :=
    match cs with
    | '+' :: t => (false, t)
    | '-' :: t => (true, t)
    | t => (false, t)
  let intDs := cs₁.takeWhile Char.isDigit
  let afterInt := cs₁.drop intDs.length
  let (fracDs, afterFrac) : List Char × List Char :=
    match afterInt with
    | '.' :: t => (t.takeWhile Char.isDigit, t.drop (t.takeWhile Char.isDigit).length)
    | t => ([], t)
  let hadDot : Bool := match afterInt with | '.' :: _ => true | _ => false
  if intDs = [] ∧ ((¬ hadDot) ∨ fracDs = []) then none
  else
    match pyFloatExp afterFrac with
    | none => none
    | some scale =>
      let mag : ℚ := ((natOfDigits intDs : ℚ) + fracOfDigits fracDs) * scale
      some (if neg then -mag else mag)

def is_number (s : String) : Bool := (pyFloat? s).isSome

/-! ### `parse_duration` -/

/-- `[0-9]+(?:\.[0-9]+)?` at the head of the list: value and consumed length.
The regex is greedy; no backtracking into the digit runs is observable here
because every continuation in `parse_duration` expects a non-digit. -/
def numberAt (cs : List Char) : Option (ℚ × ℕ) :=
  let ds := cs.takeWhile Char.isDigit
  if ds = [] then none
  else
    match cs.drop ds.length with
    | '.' :: r₂ =>
      let fs := r₂.takeWhile Char.isDigit
      if fs = [] then some ((natOfDigits ds : ℚ), ds.length)
      else some ((natOfDigits ds : ℚ) + fracOfDigits fs, ds.length + 1 + fs.length)
    | _ => some ((natOfDigits ds : ℚ), ds.length)

/-- Match `([0-9]+(?:\.[0-9]+)?)u` at the head (`u` a single unit letter),
with `(?!o)` lookahead when `noO` is set (the `m(?!o)` minute pattern). -/
def unitMatchAt (u : Char) (noO : Bool) (cs : List Char) : Option (ℚ × ℕ) :=
  match numberAt cs with
  | none => none
  | some (q, n) =>
    match cs.drop n with
    | c :: r =>
      if c = u then
        if noO then (match r with | 'o' :: _ => none | _ => some (q, n + 1))
        else some (q, n + 1)
      else none
    | [] => none

/-- Match `([0-9]+(?:\.[0-9]+)?)mo` at the head. -/
def moMatchAt (cs : List Char) : Option (ℚ × ℕ) :=
  match numberAt cs with
  | none => none
  | some (q, n) =>
    match cs.drop n with
    | 'm' :: 'o' :: _ => some (q, n + 2)
    | _ => none

/-- `re.findall` scan: leftmost, non-overlapping; advance one character on
failure. `fuel` bounds the recursion; every step consumes at least one
character, so `fuel = cs.length` is exact. -/
def scanAll (m : List Char → Option (ℚ × ℕ)) : ℕ → List Char → List ℚ
  | 0, _ => []
  | _, [] => []
  | fuel + 1, c :: r =>
    match m (c :: r) with
    | some (q, n) => q :: scanAll m fuel ((c :: r).drop (max n 1))
    | none => scanAll m fuel r

def sumQ (l : List ℚ) : ℚ := l.foldl (· + ·) 0

/-- The simple decimal-hours fast path `^[0-9]+(?:\.[0-9]+)?h$`. -/
def fastHourMatch (cs : List Char) : Option ℚ :=
  match numberAt cs with
  | none => none
  | some (q, n) =>
    match cs.drop n with
    | ['h'] => some q
    | _ => none

/-- `parse_duration` (src/timecalc.py:786-818): seconds of the parsed
compound duration, or the raised `ValueError`. -/
def parse_duration (s : String) : QRes :=
  let t := pyLower (pyStrip s)
  let cs := t.toList
  match fastHourMatch cs with
  | some q => .ok (q * 3600)
  | none =>
    let fuel := cs.length
    let ys := scanAll (unitMatchAt 'y' false) fuel cs
    let mos := scanAll moMatchAt fuel cs
    let ws := scanAll (unitMatchAt 'w' false) fuel cs
    let ds := scanAll (unitMatchAt 'd' false) fuel cs
    let hs := scanAll (unitMatchAt 'h' false) fuel cs
    let ms := scanAll (unitMatchAt 'm' true) fuel cs
    let ss := scanAll (unitMatchAt 's' false) fuel cs
    if ys = [] ∧ mos = [] ∧ ws = [] ∧ ds = [] ∧ hs = [] ∧ ms = [] ∧ ss = [] then
      .err ("Cannot parse duration: " ++ t)
    else
      .ok (sumQ ys * (365.25 * 86400) + sumQ mos * (30.44 * 86400)
        + sumQ ws * (7 * 86400) + sumQ ds * 86400
        + sumQ hs * 3600 + sumQ ms * 60 + sumQ ss)

/-! ### Gregorian calendar (for `datetime` construction and `strftime`) -/

def isLeap (y : ℕ) : Bool := y % 4 = 0 && (y % 100 ≠ 0 || y % 400 = 0)

def daysInMonth (y m : ℕ) : ℕ :=
  if m = 2 then (if isLeap y then 29 else 28)
  else if m = 4 ∨ m = 6 ∨ m = 9 ∨ m = 11 then 30
  else 31

/-- Days from 1970-01-01 to the civil date `y-m-d` (proleptic Gregorian). -/
def daysFromCivil (y m d : ℤ) : ℤ :=
  let yA := if m ≤ 2 then y - 1 else y
  let era := Int.fdiv yA 400
  let yoe := yA - era * 400
  let mp := (m + 9) % 12
  let doy := (153 * mp + 2) / 5 + d - 1
  let doe := yoe * 365 + yoe / 4 - yoe / 100 + doy
  era * 146097 + doe - 719468

/-- Inverse of `daysFromCivil`. -/
def civilFromDays (z : ℤ) : ℤ × ℤ × ℤ :=
  let z₁ := z + 719468
  let era := Int.fdiv z₁ 146097
  let doe := z₁ - era * 146097
  let yoe := (doe - doe / 1460 + doe / 36524 - doe / 146096) / 365
  let y := yoe + era * 400
  let doy := doe - (365 * yoe + yoe / 4 - yoe / 100)
  let mp := (5 * doy + 2) / 153
  let d := doy - (153 * mp + 2) / 5 + 1
  let m := if mp < 10 then mp + 3 else mp - 9
  (if m ≤ 2 then y + 1 else y, m, d)

/-- Days from the sentinel epoch 1900-01-01 to 1970-01-01, negated below. -/
def days1900 : ℤ := daysFromCivil 1900 1 1

/-- Seconds since 1900-01-01 00:00:00 of `datetime(y, m, d, h, mi, sec, micro)`. -/
def dtSeconds (y m d h mi sec micro : ℕ) : ℚ :=
  ((daysFromCivil y m d - days1900 : ℤ) : ℚ) * 86400
    + h * 3600 + mi * 60 + sec + (micro : ℚ) / 1000000

/-! ### Mini `strptime` for the 21 formats tried by `parse_datetime`.

Each `%`-directive is translated to the character alternation CPython's
`_strptime` compiles it to, with regex backtracking order preserved
(alternatives tried left to right, whitespace `\s+` greedy).  A format
matches only when the preferred regex match consumes the whole string,
and the resulting fields must pass the `datetime` constructor checks. -/

inductive FI
  | lit (c : Char)
  | yr     -- %Y : \d{4}
  | mon    -- %m : 1[0-2]|0[1-9]|[1-9]
  | dy     -- %d : 3[01]|[12]\d|0[1-9]|[1-9]
  | hr24   -- %H : 2[0-3]|[0-1]\d|\d
  | hr12   -- %I : 1[0-2]|0[1-9]|[1-9]
  | minu   -- %M : [0-5]\d|\d
  | sec    -- %S : 6[0-1]|[0-5]\d|\d
  | frac   -- %f : [0-9]{1,6}
  | mer    -- %p : AM|PM|  (case-insensitive, empty allowed)
  | ws1    -- a blank in the format : \s+
  deriving DecidableEq, Repr

/-- Fields collected by a format match (with `_strptime` defaults). -/
structure SF where
  y : ℕ
  mon : ℕ
  d : ℕ
  h : ℕ
  iOpt : Option ℕ
  mi : ℕ
  s : ℕ
  f : ℕ
  pOpt : Option (Option Bool)  -- some (some true)=pm, some (some false)=am, some none=empty match
  deriving DecidableEq, Repr

def SF.init : SF := ⟨1900, 1, 1, 0, none, 0, 0, 0, none⟩

def ciEq (c t : Char) : Bool := c.toLower = t

/-- Run a format against the input, returning the collected fields and the
unconsumed remainder of the preferred (backtracking-order) match. -/
def runFmt : ℕ → List FI → List Char → SF → Option (SF × List Char)
  | 0, _, _, _ => none
  | _ + 1, [], cs, st => some (st, cs)
  | fuel + 1, .lit ch :: fs, cs, st =>
    (match cs with
     | c :: r => if c = ch then runFmt fuel fs r st else none
     | [] => none)
  | fuel + 1, .yr :: fs, cs, st =>
    (match cs with
     | a :: b :: c₂ :: d :: r =>
       if a.isDigit && b.isDigit && c₂.isDigit && d.isDigit then
         runFmt fuel fs r { st with y := dv a * 1000 + dv b * 100 + dv c₂ * 10 + dv d }
       else none
     | _ => none)
  | fuel + 1, .mon :: fs, cs, st =>
    (match cs with
     | c₁ :: c₂ :: r =>
       (if c₁ = '1' && ('0' ≤ c₂ && c₂ ≤ '2') then
          runFmt fuel fs r { st with mon := 10 + dv c₂ } else none) <|>
       (if c₁ = '0' && ('1' ≤ c₂ && c₂ ≤ '9') then
          runFmt fuel fs r { st with mon := dv c₂ } else none)
     | _ => none) <|>
    (match cs with
     | c₁ :: r =>
       if '1' ≤ c₁ && c₁ ≤ '9' then runFmt fuel fs r { st with mon := dv c₁ } else none
     | _ => none)
  | fuel + 1, .dy :: fs, cs, st =>
    (match cs with
     | c₁ :: c₂ :: r =>
       (if c₁ = '3' && (c₂ = '0' || c₂ = '1') then
          runFmt fuel fs r { st with d := 30 + dv c₂ } else none) <|>
       (if (c₁ = '1' || c₁ = '2') && c₂.isDigit then
          runFmt fuel fs r { st with d := dv c₁ * 10 + dv c₂ } else none) <|>
       (if c₁ = '0' && ('1' ≤ c₂ && c₂ ≤ '9') then
          runFmt fuel fs r { st with d := dv c₂ } else none)
     | _ => none) <|>
    (match cs with
     | c₁ :: r =>
       if '1' ≤ c₁ && c₁ ≤ '9' then runFmt fuel fs r { st with d := dv c₁ } else none
     | _ => none)
  | fuel + 1, .hr24 :: fs, cs, st =>
    (match cs with
     | c₁ :: c₂ :: r =>
       (if c₁ = '2' && ('0' ≤ c₂ && c₂ ≤ '3') then
          runFmt fuel fs r { st with h := 20 + dv c₂ } else none) <|>
       (if (c₁ = '0' || c₁ = '1') && c₂.isDigit then
          runFmt fuel fs r { st with h := dv c₁ * 10 + dv c₂ } else none)
     | _ => none) <|>
    (match cs with
     | c₁ :: r => if c₁.isDigit then runFmt fuel fs r { st with h := dv c₁ } else none
     | _ => none)
  | fuel + 1, .hr12 :: fs, cs, st =>
    (match cs with
     | c₁ :: c₂ :: r =>
       (if c₁ = '1' && ('0' ≤ c₂ && c₂ ≤ '2') then
          runFmt fuel fs r { st with iOpt := some (10 + dv c₂) } else none) <|>
       (if c₁ = '0' && ('1' ≤ c₂ && c₂ ≤ '9') then
          runFmt fuel fs r { st with iOpt := some (dv c₂) } else none)
     | _ => none) <|>
    (match cs with
     | c₁ :: r =>
       if '1' ≤ c₁ && c₁ ≤ '9' then runFmt fuel fs r { st with iOpt := some (dv c₁) } else none
     | _ => none)
  | fuel + 1, .minu :: fs, cs, st =>
    (match cs with
     | c₁ :: c₂ :: r =>
       if ('0' ≤ c₁ && c₁ ≤ '5') && c₂.isDigit then
         runFmt fuel fs r { st with mi := dv c₁ * 10 + dv c₂ } else none
     | _ => none) <|>
    (match cs with
     | c₁ :: r => if c₁.isDigit then runFmt fuel fs r { st with mi := dv c₁ } else none
     | _ => none)
  | fuel + 1, .sec :: fs, cs, st =>
    (match cs with
     | c₁ :: c₂ :: r =>
       (if c₁ = '6' && (c₂ = '0' || c₂ = '1') then
          runFmt fuel fs r { st with s := 60 + dv c₂ } else none) <|>
       (if ('0' ≤ c₁ && c₁ ≤ '5') && c₂.isDigit then
          runFmt fuel fs r { st with s := dv c₁ * 10 + dv c₂ } else none)
     | _ => none) <|>
    (match cs with
     | c₁ :: r => if c₁.isDigit then runFmt fuel fs r { st with s := dv c₁ } else none
     | _ => none)
  | fuel + 1, .frac :: fs, cs, st =>
    -- greedy [0-9]{1,6}; %f is the final item of every format using it,
    -- so backtracking over the digit count is unobservable
    let ds := (cs.takeWhile Char.isDigit).take 6
    if ds = [] then none
    else runFmt fuel fs (cs.drop ds.length) { st with f := natOfDigits ds * 10 ^ (6 - ds.length) }
  | fuel + 1, .mer :: fs, cs, st =>
    (match cs with
     | c₁ :: c₂ :: r =>
       if ciEq c₁ 'a' && ciEq c₂ 'm' then runFmt fuel fs r { st with pOpt := some (some false) }
       else none
     | _ => none) <|>
    (match cs with
     | c₁ :: c₂ :: r =>
       if ciEq c₁ 'p' && ciEq c₂ 'm' then runFmt fuel fs r { st with pOpt := some (some true) }
       else none
     | _ => none) <|>
    runFmt fuel fs cs { st with pOpt := some none }
  | fuel + 1, .ws1 :: fs, cs, st =>
    (match cs with
     | c :: r =>
       if pyWs c then (runFmt fuel (.ws1 :: fs) r st <|> runFmt fuel fs r st) else none
     | [] => none)

/-- The `datetime` constructor checks and the `%I`/`%p` hour resolution of
`_strptime`, producing seconds since 1900-01-01. -/
def buildFromSF (st : SF) : Option ℚ :=
  let hour : ℕ :=
    match st.iOpt with
    | some i =>
      (match st.pOpt with
       | some (some true) => if i ≠ 12 then i + 12 else 12
       | _ => if i = 12 then 0 else i)
    | none => st.h
  if 1 ≤ st.y ∧ 1 ≤ st.d ∧ st.d ≤ daysInMonth st.y st.mon ∧ st.s ≤ 59 then
    some (dtSeconds st.y st.mon st.d hour st.mi st.s st.f)
  else none

def strptimeOne (fmt : List FI) (cs : List Char) : Option ℚ :=
  match runFmt (fmt.length + cs.length + 1) fmt cs SF.init with
  | some (st, []) => buildFromSF st
  | _ => none

def strptime_formats : List (List FI) :=
  [ [.yr, .lit '-', .mon, .lit '-', .dy, .ws1, .hr24, .lit ':', .minu, .lit ':', .sec, .lit '.', .frac],
    [.yr, .lit '-', .mon, .lit '-', .dy, .ws1, .hr24, .lit ':', .minu, .lit ':', .sec],
    [.yr, .lit '-', .mon, .lit '-', .dy, .ws1, .hr24, .lit ':', .minu],
    [.yr, .lit '-', .mon, .lit '-', .dy, .ws1, .hr12, .lit ':', .minu, .lit ':', .sec, .ws1, .mer],
    [.yr, .lit '-', .mon, .lit '-', .dy, .ws1, .hr12, .lit ':', .minu, .ws1, .mer],
    [.yr, .lit '/', .mon, .lit '/', .dy, .ws1, .hr24, .lit ':', .minu, .lit ':', .sec, .lit '.', .frac],
    [.yr, .lit '/', .mon, .lit '/', .dy, .ws1, .hr24, .lit ':', .minu, .lit ':', .sec],
    [.yr, .lit '/', .mon, .lit '/', .dy, .ws1, .hr24, .lit ':', .minu],
    [.yr, .lit '/', .mon, .lit '/', .dy, .ws1, .hr12, .lit ':', .minu, .lit ':', .sec, .ws1, .mer],
    [.yr, .lit '/', .mon, .lit '/', .dy, .ws1, .hr12, .lit ':', .minu, .ws1, .mer],
    [.mon, .lit '/', .dy, .lit '/', .yr, .ws1, .hr24, .lit ':', .minu, .lit ':', .sec],
    [.mon, .lit '/', .dy, .lit '/', .yr, .ws1, .hr24, .lit ':', .minu],
    [.mon, .lit '/', .dy, .lit '/', .yr, .ws1, .hr12, .lit ':', .minu, .ws1, .mer],
    [.hr24, .lit ':', .minu, .lit ':', .sec, .lit '.', .frac],
    [.hr24, .lit ':', .minu, .lit ':', .sec],
    [.hr24, .lit ':', .minu],
    [.hr12, .lit ':', .minu, .lit ':', .sec, .ws1, .mer],
    [.hr12, .lit ':', .minu, .ws1, .mer],
    [.yr, .lit '-', .mon, .lit '-', .dy],
    [.yr, .lit '/', .mon, .lit '/', .dy],
    [.mon, .lit '/', .dy, .lit '/', .yr] ]

def try_formats (cs : List Char) : Option ℚ :=
  strptime_formats.findSome? (fun f => strptimeOne f cs)

/-! ### `parse_datetime` decimal fallback -/

/-- `re.sub(r'([ap])(?:\s|$)', r'\1m', s, flags=IGNORECASE)`: an `a`/`p`
followed by whitespace (the whitespace is consumed) or end of string
becomes `am`/`pm`. -/
def normalizeAP : List Char → List Char
  | [] => []
  | [c] => if c = 'a' ∨ c = 'A' ∨ c = 'p' ∨ c = 'P' then [c, 'm'] else [c]
  | c :: c₂ :: r =>
    if (c = 'a' ∨ c = 'A' ∨ c = 'p' ∨ c = 'P') ∧ pyWs c₂ then
      c :: 'm' :: normalizeAP r
    else c :: normalizeAP (c₂ :: r)

/-- The `(?:\s*(am|pm))?$` tail of the decimal patterns: `some none` when
the rest is empty, `some (some isPM)` on whitespace-then-meridiem-to-end,
`none` when the whole pattern fails (leftover text). -/
def decTail (cs : List Char) : Option (Option Bool) :=
  match cs with
  | [] => some none
  | _ =>
    match cs.dropWhile pyWs with
    | [a, m] =>
      if ciEq a 'a' && ciEq m 'm' then some (some false)
      else if ciEq a 'p' && ciEq m 'm' then some (some true)
      else none
    | _ => none

/-- `^(\d{1,2})` followed by `:`; the two-digit preference of `\d{1,2}` is
forced because the continuation is a non-digit. -/
def twoDigitHead (cs : List Char) : Option (ℕ × List Char) :=
  match cs with
  | c₁ :: c₂ :: ':' :: r => if c₁.isDigit && c₂.isDigit then some (dv c₁ * 10 + dv c₂, r) else none
  | c₁ :: ':' :: r => if c₁.isDigit then some (dv c₁, r) else none
  | _ => none

/-- `^(\d{1,2}):(\d{2}):(\d{1,2}(?:\.\d+)?)(?:\s*(am|pm))?$`. -/
def decimalP1 (cs : List Char) : Option (ℕ × ℕ × ℚ × Option Bool) :=
  match twoDigitHead cs with
  | none => none
  | some (h, r₁) =>
    match r₁ with
    | m₁ :: m₂ :: ':' :: r₂ =>
      if m₁.isDigit && m₂.isDigit then
        let ds := (r₂.takeWhile Char.isDigit).take 2
        if ds = [] then none
        else
          let r₃ := r₂.drop ds.length
          match r₃ with
          | '.' :: r₄ =>
            let fs := r₄.takeWhile Char.isDigit
            if fs = [] then none
            else
              match decTail (r₄.drop fs.length) with
              | some ap => some (h, dv m₁ * 10 + dv m₂, (natOfDigits ds : ℚ) + fracOfDigits fs, ap)
              | none => none
          | _ =>
            match decTail r₃ with
            | some ap => some (h, dv m₁ * 10 + dv m₂, (natOfDigits ds : ℚ), ap)
            | none => none
      else none
    | _ => none

/-- `^(\d{1,2}):(\d{2})(?:\s*(am|pm))?$`. -/
def decimalP2 (cs : List Char) : Option (ℕ × ℕ × Option Bool) :=
  match twoDigitHead cs with
  | none => none
  | some (h, r₁) =>
    match r₁ with
    | m₁ :: m₂ :: r₂ =>
      if m₁.isDigit && m₂.isDigit then
        match decTail r₂ with
        | some ap => some (h, dv m₁ * 10 + dv m₂, ap)
        | none => none
      else none
    | _ => none

/-- Seconds since midnight of `datetime(1900, 1, 1, hr, mi, seconds,
microseconds)` with `seconds = int(sf)` and
`microseconds = int((sf - seconds) * 1000000)`. -/
def decSecs (hr mi : ℕ) (sf : ℚ) : ℚ :=
  (hr : ℚ) * 3600 + mi * 60 + ⌊sf⌋ + (⌊(sf - ⌊sf⌋) * 1000000⌋ : ℚ) / 1000000

/-- Bounds checking, meridiem resolution and `datetime(1900,1,1,…)`
construction shared by the two decimal patterns
(src/timecalc.py:764-782).  Error messages elide the interpolated
values of the corresponding Python f-strings. -/
def decimal_build (h mi : ℕ) (sf : ℚ) (ampm : Option Bool) : QRes :=
  if 60 ≤ mi ∨ 60 ≤ sf then .err "Invalid time"
  else
    match ampm with
    | some isPM =>
      if ¬ (1 ≤ h ∧ h ≤ 12) then .err "Invalid 12-hour format"
      else
        let hr := if isPM ∧ h ≠ 12 then h + 12 else if (¬ isPM) ∧ h = 12 then 0 else h
        .ok (decSecs hr mi sf)
    | none =>
      if 24 ≤ h then .err "Invalid 24-hour format"
      else .ok (decSecs h mi sf)

/-- `parse_datetime` (src/timecalc.py:722-784): strip, normalize `a`/`p`
shorthand, try the 21 `strptime` formats first-match-wins, then the two
decimal fallback patterns. -/
def parse_datetime (s : String) : QRes :=
  let t := String.mk (normalizeAP (pyStrip s).toList)
  match try_formats t.toList with
  | some q => .ok q
  | none =>
    match decimalP1 t.toList with
    | some (h, mi, sf, ap) => decimal_build h mi sf ap
    | none =>
      match decimalP2 t.toList with
      | some (h, mi, ap) => decimal_build h mi 0 ap
      | none => .err ("Cannot parse datetime: " ++ t)

/-! ### `is_datetime_format` (`re.search` of three unanchored patterns) -/

/-- Head-match of `\d{1,2}:\d{2}`; the optional tails of the first
`is_datetime_format` pattern always match the empty string, so a search
hit exists iff this core matches at some position. -/
def timeCoreAt : List Char → Bool
  | d₁ :: d₂ :: ':' :: m₁ :: m₂ :: _ => d₁.isDigit && d₂.isDigit && m₁.isDigit && m₂.isDigit
  | d₁ :: ':' :: m₁ :: m₂ :: _ => d₁.isDigit && m₁.isDigit && m₂.isDigit
  | _ => false

/-- Head-match of `\d{4}(-|/)\d{2}(-|/)\d{2}`. -/
def isoDateAt : List Char → Bool
  | a :: b :: c :: d :: s₁ :: e :: f :: s₂ :: g :: h :: _ =>
    a.isDigit && b.isDigit && c.isDigit && d.isDigit && (s₁ = '-' || s₁ = '/')
      && e.isDigit && f.isDigit && (s₂ = '-' || s₂ = '/') && g.isDigit && h.isDigit
  | _ => false

/-- Four leading digits. -/
def fourDigitsAt : List Char → Bool
  | a :: b :: c :: d :: _ => a.isDigit && b.isDigit && c.isDigit && d.isDigit
  | _ => false

/-- Head-match of `\d{1,2}/\d{1,2}/\d{4}` (all digit-count combinations). -/
def usDateAt (cs : List Char) : Bool :=
  match cs with
  | a₁ :: a₂ :: '/' :: r =>
    a₁.isDigit && a₂.isDigit &&
      (match r with
       | b₁ :: b₂ :: '/' :: r₂ => b₁.isDigit && b₂.isDigit && fourDigitsAt r₂
       | b₁ :: '/' :: r₂ => b₁.isDigit && fourDigitsAt r₂
       | _ => false)
  | a₁ :: '/' :: r =>
    a₁.isDigit &&
      (match r with
       | b₁ :: b₂ :: '/' :: r₂ => b₁.isDigit && b₂.isDigit && fourDigitsAt r₂
       | b₁ :: '/' :: r₂ => b₁.isDigit && fourDigitsAt r₂
       | _ => false)
  | _ => false

def anyPos (p : List Char → Bool) : List Char → Bool
  | [] => p []
  | c :: r => p (c :: r) || anyPos p r

/-- `is_datetime_format` (src/timecalc.py:711-720). -/
def is_datetime_format (s : String) : Bool :=
  anyPos timeCoreAt s.toList || anyPos isoDateAt s.toList || anyPos usDateAt s.toList

/-! ### `looks_like_datetime` (anchored full-string patterns) -/

/-- `(\s*[ap]m?)?$` — optional meridiem then end of string. -/
def merTail (cs : List Char) : Bool :=
  match cs with
  | [] => true
  | _ =>
    match cs.dropWhile pyWs with
    | [a] => ciEq a 'a' || ciEq a 'p'
    | [a, m] => (ciEq a 'a' || ciEq a 'p') && ciEq m 'm'
    | _ => false

/-- `(:\d{2})?(\s*[ap]m?)?$` after an `H:MM` prefix. -/
def clockTail (cs : List Char) : Bool :=
  (match cs with
   | ':' :: s₁ :: s₂ :: r => s₁.isDigit && s₂.isDigit && merTail r
   | _ => false) || merTail cs

/-- `\d{1,2}:\d{2}` then `clockTail`, anchored at the head. -/
def clockFull (cs : List Char) : Bool :=
  match cs with
  | d₁ :: d₂ :: ':' :: m₁ :: m₂ :: r =>
    d₁.isDigit && d₂.isDigit && m₁.isDigit && m₂.isDigit && clockTail r
  | d₁ :: ':' :: m₁ :: m₂ :: r => d₁.isDigit && m₁.isDigit && m₂.isDigit && clockTail r
  | _ => false

/-- `(\s+<clock>)?$` — the optional time part of the two date patterns. -/
def dateTimeTail (cs : List Char) : Bool :=
  match cs with
  | [] => true
  | c :: r => pyWs c && clockFull (r.dropWhile pyWs)

/-- `looks_like_datetime` (src/timecalc.py:606-613). -/
def looks_like_datetime (s : String) : Bool :=
  let cs := s.toList
  (match cs with
   | a :: b :: c :: d :: s₁ :: e :: f :: s₂ :: g :: h :: r =>
     a.isDigit && b.isDigit && c.isDigit && d.isDigit && (s₁ = '-' || s₁ = '/')
       && e.isDigit && f.isDigit && (s₂ = '-' || s₂ = '/') && g.isDigit && h.isDigit
       && dateTimeTail r
   | _ => false) ||
  (match cs with
   | a₁ :: a₂ :: '/' :: r =>
     a₁.isDigit && a₂.isDigit &&
       (match r with
        | b₁ :: b₂ :: '/' :: c₁ :: c₂ :: c₃ :: c₄ :: r₂ =>
          b₁.isDigit && b₂.isDigit && c₁.isDigit && c₂.isDigit && c₃.isDigit && c₄.isDigit
            && dateTimeTail r₂
        | b₁ :: '/' :: c₁ :: c₂ :: c₃ :: c₄ :: r₂ =>
          b₁.isDigit && c₁.isDigit && c₂.isDigit && c₃.isDigit && c₄.isDigit && dateTimeTail r₂
        | _ => false)
   | a₁ :: '/' :: r =>
     a₁.isDigit &&
       (match r with
        | b₁ :: b₂ :: '/' :: c₁ :: c₂ :: c₃ :: c₄ :: r₂ =>
          b₁.isDigit && b₂.isDigit && c₁.isDigit && c₂.isDigit && c₃.isDigit && c₄.isDigit
            && dateTimeTail r₂
        | b₁ :: '/' :: c₁ :: c₂ :: c₃ :: c₄ :: r₂ =>
          b₁.isDigit && c₁.isDigit && c₂.isDigit && c₃.isDigit && c₄.isDigit && dateTimeTail r₂
        | _ => false)
   | _ => false) ||
  clockFull cs

/-! ### `is_progress_function` and the tokenizer -/

/-- `^\s*progress\s*\([^)]+\)\s*$` with `re.IGNORECASE`. -/
def is_progress_function (s : String) : Bool :=
  let cs := s.toList.dropWhile pyWs
  if listStartsWith "progress".toList (cs.map Char.toLower) then
    let cs₂ := (cs.drop 8).dropWhile pyWs
    match cs₂ with
    | '(' :: r =>
      let inner := r.takeWhile (· ≠ ')')
      inner ≠ [] &&
        (match r.drop inner.length with
         | ')' :: tail => tail.dropWhile pyWs = []
         | _ => false)
    | _ => false
  else false

/-- Does `before` end in four digits (`re.search(r'\d{4}$', before)`)? -/
def endsInFourDigits (before : String) : Bool :=
  match before.toList.reverse with
  | a :: b :: c :: d :: _ => a.isDigit && b.isDigit && c.isDigit && d.isDigit
  | _ => false

/-- Does `before` end in `\d{4}-\d{2}` (`re.search(r'\d{4}-\d{2}$', …)`)? -/
def endsInYearMonth (before : String) : Bool :=
  match before.toList.reverse with
  | a :: b :: '-' :: c :: d :: e :: f :: _ =>
    a.isDigit && b.isDigit && c.isDigit && d.isDigit && e.isDigit && f.isDigit
  | _ => false

/-- `is_operator_here` (src/timecalc.py:585-604). -/
def is_operator_here (expression before : String) (ch : Char) : Bool :=
  if pyStrip before = "" then false
  else if ch = '-' ∧ (endsInFourDigits before ∨ endsInYearMonth before) then false
  else if ch = '*' then true
  else if looks_like_datetime (pyStrip before) then true
  else
    before.toList.contains ' '
      || containsSub expression (before ++ String.singleton ch ++ " ")

/-- Tokenizer loop state: emitted tokens, operand being accumulated,
parenthesis depth. -/
structure TokSt where
  tokens : List String
  current : String
  depth : ℤ
  deriving DecidableEq, Repr

/-- One character step of the `tokenize` loop (src/timecalc.py:562-578). -/
def tok_step (expression : String) (st : TokSt) (ch : Char) : TokSt :=
  if ch = '(' then { tokens := st.tokens, current := st.current.push ch, depth := st.depth + 1 }
  else if ch = ')' then { tokens := st.tokens, current := st.current.push ch, depth := st.depth - 1 }
  else if (ch = '+' ∨ ch = '-' ∨ ch = '*') ∧ st.depth = 0 then
    if is_operator_here expression st.current ch then
      { tokens := st.tokens
          ++ (if pyStrip st.current ≠ "" then [pyStrip st.current] else [])
          ++ [String.singleton ch],
        current := "", depth := st.depth }
    else { tokens := st.tokens, current := st.current.push ch, depth := st.depth }
  else { tokens := st.tokens, current := st.current.push ch, depth := st.depth }

/-- `tokenize` (src/timecalc.py:552-583). -/
def tokenize (expression : String) : List String :=
  if is_progress_function expression then [expression]
  else
    let st := expression.toList.foldl (tok_step expression) ⟨[], "", 0⟩
    st.tokens ++ (if pyStrip st.current ≠ "" then [pyStrip st.current] else [])

/-! ### Typed arithmetic (`add_values`, `subtract_values`, `multiply_values`) -/

/-- The sentinel epoch `datetime(1900, 1, 1)` in the seconds encoding. -/
def epoch1900 : ℚ := 0

/-- `b.date() == datetime(1900, 1, 1).date()`: the day ordinal of `b` is
that of the sentinel epoch. -/
def onEpochDate (b : ℚ) : Prop := ⌊b / 86400⌋ = 0

instance (b : ℚ) : Decidable (onEpochDate b) := by unfold onEpochDate; infer_instance

/-- `timedelta(hours=b.hour, minutes=b.minute, seconds=b.second,
microseconds=b.microsecond)`: the time-of-day offset of the instant `b`. -/
def todOf (b : ℚ) : ℚ := b - 86400 * (⌊b / 86400⌋ : ℚ)

def typeName : Val → String
  | .instant _ => "datetime"
  | .duration _ => "timedelta"
  | .scalar _ => "float"

/-- `add_values` (src/timecalc.py:648-666). -/
def add_values : Val → Val → VRes
  | .instant a, .duration b => .ok (.instant (a + b))
  | .duration a, .instant b => .ok (.instant (b + a))
  | .duration a, .duration b => .ok (.duration (a + b))
  | .instant a, .instant b =>
    if onEpochDate b then .ok (.instant (a + todOf b))
    else .ok (.instant (a + (b - epoch1900)))
  | a, b => .err ("Cannot add " ++ typeName a ++ " and " ++ typeName b)

/-- `subtract_values` (src/timecalc.py:668-677). -/
def subtract_values : Val → Val → VRes
  | .instant a, .instant b => .ok (.duration (a - b))
  | .instant a, .duration b => .ok (.instant (a - b))
  | .duration a, .duration b => .ok (.duration (a - b))
  | _, _ => .err "Invalid subtraction"

/-- `multiply_values` (src/timecalc.py:679-686). -/
def multiply_values : Val → Val → VRes
  | .scalar a, .duration b => .ok (.duration (b * a))
  | .duration a, .scalar b => .ok (.duration (a * b))
  | _, _ => .err "Can only multiply number × duration"

/-! ### `parse_value` and the evaluator -/

/-- `parse_value` (src/timecalc.py:688-701).  The `now` branch reads the
clock at the current counter (`datetime.now()`). -/
def parse_value (c : Clock) (k : ℕ) (text : String) : VRes × ℕ :=
  let t := pyStrip text
  if pyLower t = "now" then (.ok (.instant (c k)), k + 1)
  else
    match pyFloat? t with
    | some q => (.ok (.scalar q), k)
    | none =>
      if is_datetime_format t then
        match parse_datetime t with
        | .ok q => (.ok (.instant q), k)
        | .err e => (.err e, k)
      else
        match parse_duration t with
        | .ok q => (.ok (.duration q), k)
        | .err e => (.err e, k)

def apply_op (op : String) (a b : Val) : VRes :=
  if op = "+" then add_values a b
  else if op = "-" then subtract_values a b
  else if op = "*" then multiply_values a b
  else .err ("Unknown operator: " ++ op)

/-- The `while i < len(tokens) - 1` pairwise loop of `evaluate_tokens`
(src/timecalc.py:630-644): a trailing operator with no operand is
silently dropped. -/
def eval_pairs (c : Clock) : ℕ → Val → List String → VRes × ℕ
  | k, r, op :: operand :: rest =>
    (match parse_value c k operand with
     | (.err e, k₁) => (.err e, k₁)
     | (.ok v, k₁) =>
       (match apply_op op r v with
        | .err e => (.err e, k₁)
        | .ok r₂ => eval_pairs c k₁ r₂ rest))
  | k, r, _ => (.ok r, k)

/-- Is the expression of the form number `*` … (the scalar seed test
`is_number(tokens[0]) and len(tokens) >= 3 and tokens[1] == '*'`)? -/
def firstIsStar : List String → Bool
  | t₁ :: _ :: _ => t₁ = "*"
  | _ => false

/-- `evaluate_tokens` (src/timecalc.py:615-646), including the
duration-plus-instant early return at lines 623-627. -/
def evaluate_tokens (c : Clock) (k : ℕ) (ts : List String) : VRes × ℕ :=
  match ts with
  | [] => (.err "list index out of range", k)
  | t₀ :: rest =>
    if is_number t₀ ∧ firstIsStar rest then
      eval_pairs c k (.scalar ((pyFloat? t₀).getD 0)) rest
    else
      match parse_value c k t₀ with
      | (.err e, k₁) => (.err e, k₁)
      | (.ok first, k₁) =>
        match first, rest with
        | .duration d, t₁ :: t₂ :: _ =>
          if t₁ = "+" then
            match parse_value c k₁ t₂ with
            | (.err e, k₂) => (.err e, k₂)
            | (.ok (.instant b), k₂) => (.ok (.instant (b + d)), k₂)
            | (.ok _, k₂) => eval_pairs c k₂ first rest
          else eval_pairs c k₁ first rest
        | _, _ => eval_pairs c k₁ first rest

/-- Modelled from the spec: the evaluator §4.5 describes, which seeds the
running result from the first token and then applies every subsequent
(operator, operand) pair left to right with no special case.  Used as the
comparison point for claim C2. -/
def evaluate_tokens_spec (c : Clock) (k : ℕ) (ts : List String) : VRes × ℕ :=
  match ts with
  | [] => (.err "list index out of range", k)
  | t₀ :: rest =>
    if is_number t₀ ∧ firstIsStar rest then
      eval_pairs c k (.scalar ((pyFloat? t₀).getD 0)) rest
    else
      match parse_value c k t₀ with
      | (.err e, k₁) => (.err e, k₁)
      | (.ok first, k₁) => eval_pairs c k₁ first rest

/-! ### `calculate_progress` -/

/-- Prefix match of
`progress\s*\(\s*([^,]+)\s*,\s*([0-9]+(?:\.[0-9]+)?)%(?:\s*,\s*(\w+))?\s*\)`
(`re.match`, `re.IGNORECASE`): the raw group-1 text, the percentage
value, and the optional mode word.  The greedy `[^,]+` runs to the first
comma, so group 1 is the span between `(` and the first `,` (at least
one character; with only whitespace there, backtracking still captures a
whitespace character, and both cases strip to the same string). -/
def pyWordChar (c : Char) : Bool :=
  c.isAlpha || c.isDigit || c = '_'

def progress_match (s : String) : Option (String × ℚ × Option String) :=
  let cs := s.toList
  if listStartsWith "progress".toList (cs.map Char.toLower) then
    match (cs.drop 8).dropWhile pyWs with
    | '(' :: r =>
      let g₁ := r.takeWhile (· ≠ ',')
      if g₁ = [] then none
      else
        match r.drop g₁.length with
        | ',' :: r₂ =>
          let r₃ := r₂.dropWhile pyWs
          let ds := r₃.takeWhile Char.isDigit
          if ds = [] then none
          else
            let withFrac : Option (ℚ × List Char) :=
              match r₃.drop ds.length with
              | '.' :: r₄ =>
                let fs := r₄.takeWhile Char.isDigit
                if fs = [] then none
                else some ((natOfDigits ds : ℚ) + fracOfDigits fs, r₄.drop fs.length)
              | r₄ => some ((natOfDigits ds : ℚ), r₄)
            match withFrac with
            | none => none
            | some (p, r₅) =>
              match r₅ with
              | '%' :: r₆ =>
                -- (?:\s*,\s*(\w+))? then \s*\)  (with backtracking to the
                -- empty optional group)
                let withMode : Option (Option String) :=
                  match r₆.dropWhile pyWs with
                  | ',' :: r₇ =>
                    let w := (r₇.dropWhile pyWs).takeWhile pyWordChar
                    if w = [] then none
                    else
                      match ((r₇.dropWhile pyWs).drop w.length).dropWhile pyWs with
                      | ')' :: _ => some (some (String.mk w))
                      | _ => none
                  | _ => none
                match withMode with
                | some m => some (String.mk g₁, p, m)
                | none =>
                  match r₆.dropWhile pyWs with
                  | ')' :: _ => some (String.mk g₁, p, none)
                  | _ => none
              | _ => none
        | _ => none
    | _ => none
  else none

/-- `calculate_progress` (src/timecalc.py:519-550).  Mode `eta` performs
its own `datetime.now()` read. -/
def calculate_progress (c : Clock) (k : ℕ) (s : String) : VRes × ℕ :=
  match progress_match s with
  | none => (.err "Invalid progress syntax", k)
  | some (g₁, p, mOpt) =>
    let mode := pyLower (mOpt.getD "total")
    if ¬ (0 < p ∧ p < 100) then (.err "Percentage must be between 0 and 100", k)
    else
      match parse_duration (pyStrip g₁) with
      | .err e => (.err e, k)
      | .ok elapsed =>
        let total := elapsed / (p / 100)
        let remaining := total - elapsed
        if mode = "total" then (.ok (.duration total), k)
        else if mode = "remaining" then (.ok (.duration remaining), k)
        else if mode = "eta" then (.ok (.instant (c k + remaining)), k + 1)
        else (.err ("Invalid mode: " ++ mode), k)

/-! ### `parse_data_amount` and `calculate_data_rate` -/

/-- `^([0-9]+(?:\.[0-9]+)?)\s*([KMGTP]?[i]?[B])$` with `re.IGNORECASE`:
value and the unit text as matched. -/
def dataAmountMatch (cs : List Char) : Option (ℚ × String) :=
  match numberAt cs with
  | none => none
  | some (q, n) =>
    let r := (cs.drop n).dropWhile pyWs
    let scaleOpt : Option Char :=
      match r with
      | c :: _ => if c.toLower ∈ ['k', 'm', 'g', 't', 'p'] then some c else none
      | [] => none
    let r₂ := match scaleOpt with | some _ => r.drop 1 | none => r
    let iOpt : Option Char :=
      match r₂ with
      | c :: _ => if c.toLower = 'i' then some c else none
      | [] => none
    let r₃ := match iOpt with | some _ => r₂.drop 1 | none => r₂
    match r₃ with
    | [b] =>
      if b.toLower = 'b' then
        some (q, String.mk ((scaleOpt.toList) ++ (iOpt.toList) ++ [b]))
      else none
    | _ => none

def byteFactor (unit : String) : Option ℚ :=
  if unit = "B" then some 1
  else if unit = "KB" then some 1000
  else if unit = "MB" then some (1000 ^ 2)
  else if unit = "GB" then some (1000 ^ 3)
  else if unit = "TB" then some (1000 ^ 4)
  else if unit = "PB" then some (1000 ^ 5)
  else if unit = "KIB" then some 1024
  else if unit = "MIB" then some (1024 ^ 2)
  else if unit = "GIB" then some (1024 ^ 3)
  else if unit = "TIB" then some (1024 ^ 4)
  else if unit = "PIB" then some (1024 ^ 5)
  else none

/-- `parse_data_amount` (src/timecalc.py:820-854). -/
def parse_data_amount (s : String) : QRes :=
  let t := pyStrip s
  match dataAmountMatch t.toList with
  | none => .err ("Cannot parse data amount: " ++ t)
  | some (v, unit) =>
    match byteFactor (pyUpper unit) with
    | some f => .ok (v * f)
    | none => .err ("Unknown data unit: " ++ pyUpper unit)

/-- `calculate_data_rate` (src/timecalc.py:892-930); the enclosing
`try/except` prefixes every raised message. -/
def calculate_data_rate (elapsedStr dataStr totalStr : String) : EvalResult :=
  let wrap := fun (m : String) => EvalResult.err ("Data rate calculation error: " ++ m)
  match parse_duration (pyStrip elapsedStr) with
  | .err m => wrap m
  | .ok elapsed =>
    match parse_data_amount (pyStrip dataStr) with
    | .err m => wrap m
    | .ok dataAmount =>
      match parse_data_amount (pyStrip totalStr) with
      | .err m => wrap m
      | .ok totalData =>
        if elapsed ≤ 0 then wrap "Elapsed time must be positive"
        else if dataAmount ≤ 0 then wrap "Data amount must be positive"
        else if totalData ≤ 0 then wrap "Total data amount must be positive"
        else
          let transferRate := dataAmount / elapsed
          .okRate ⟨totalData / transferRate, transferRate, elapsed, dataAmount, totalData⟩

/-! ### The rate-expression split `^(.+?)\s*@\s*(.+?)\s*->\s*(.+?)$` -/

/-- Lazy search for the first position (after at least one character of
group text) where a whitespace run is followed by the delimiter check;
returns the group text and the remainder after the delimiter. -/
def lazySplitAt : List Char → List Char → Option (List Char × List Char)
  | acc, c :: r =>
    (if acc ≠ [] then
       (match (c :: r).dropWhile pyWs with
        | '@' :: rest => some (acc.reverse, rest)
        | _ => none)
     else none) <|> lazySplitAt (c :: acc) r
  | acc, [] =>
    if acc ≠ [] then none else none

def lazySplitArrow : List Char → List Char → Option (List Char × List Char)
  | acc, c :: r =>
    (if acc ≠ [] then
       (match (c :: r).dropWhile pyWs with
        | '-' :: '>' :: rest => some (acc.reverse, rest)
        | _ => none)
     else none) <|> lazySplitArrow (c :: acc) r
  | _, [] => none

/-- `re.match(r'^(.+?)\s*@\s*(.+?)\s*->\s*(.+?)$', s)`: the three group
texts.  The lazy groups take the shortest prefixes; the final `\s*(.+?)$`
takes the rest after the whitespace run unless only whitespace remains,
in which case the group backtracks to the last whitespace character.
(The corner where *only* whitespace stands between `@` and `->`, which
regex backtracking would resolve by capturing a whitespace character as
group 2, is not modelled; such inputs only produce parse errors.) -/
def rate_split (s : String) : Option (String × String × String) :=
  match lazySplitAt [] s.toList with
  | none => none
  | some (g₁, afterAt) =>
    match lazySplitArrow [] (afterAt.dropWhile pyWs) with
    | none => none
    | some (g₂, afterArrow) =>
      let r := afterArrow
      let w := r.takeWhile pyWs
      let rest := r.drop w.length
      if rest ≠ [] then some (String.mk g₁, String.mk g₂, String.mk rest)
      else
        match w.reverse with
        | lastWs :: _ => some (String.mk g₁, String.mk g₂, String.mk [lastWs])
        | [] => none

/-! ### `convert_progress_syntax`

The Python source builds `at_pattern` and `in_pattern` as *plain* string
literals, so `{duration_pattern}` is not interpolated: the compiled
regexes contain the literal character sequence `\x7bduration_pattern\x7d`
and never match an actual duration. -/

def bracePatChars : List Char := "\x7bduration_pattern\x7d".toList

/-- `\s*@\s*([0-9]+(?:\.[0-9]+)?)%` after the literal brace text:
returns the percent-group text and characters consumed from `cs`. -/
def atPatTail (cs : List Char) (consumed : ℕ) : Option (String × ℕ) :=
  let w₁ := cs.takeWhile pyWs
  match cs.drop w₁.length with
  | '@' :: r₁ =>
    let w₂ := r₁.takeWhile pyWs
    let r₂ := r₁.drop w₂.length
    let ds := r₂.takeWhile Char.isDigit
    if ds = [] then none
    else
      match r₂.drop ds.length with
      | '.' :: r₃ =>
        let fs := r₃.takeWhile Char.isDigit
        if fs = [] then none
        else
          match r₃.drop fs.length with
          | '%' :: _ =>
            some (String.mk (ds ++ '.' :: fs),
              consumed + w₁.length + 1 + w₂.length + ds.length + 1 + fs.length + 1)
          | _ => none
      | '%' :: _ => some (String.mk ds, consumed + w₁.length + 1 + w₂.length + ds.length + 1)
      | _ => none
  | _ => none

/-- Head match of the (uninterpolated) `at_pattern`. -/
def atPatAt (cs : List Char) : Option (String × ℕ) :=
  if listStartsWith bracePatChars cs then
    atPatTail (cs.drop bracePatChars.length) bracePatChars.length
  else none

/-- Head match of the (uninterpolated) `in_pattern`
`([0-9]+(?:\.[0-9]+)?)%\s+in\s+(\x7bduration_pattern\x7d)`. -/
def inPatAt (cs : List Char) : Option (String × ℕ) :=
  let ds := cs.takeWhile Char.isDigit
  if ds = [] then none
  else
    let step := fun (numTxt : List Char) (r : List Char) (used : ℕ) =>
      match r with
      | '%' :: r₁ =>
        let w₁ := r₁.takeWhile pyWs
        if w₁ = [] then none
        else
          match r₁.drop w₁.length with
          | 'i' :: 'n' :: r₂ =>
            let w₂ := r₂.takeWhile pyWs
            if w₂ = [] then none
            else if listStartsWith bracePatChars (r₂.drop w₂.length) then
              some (String.mk numTxt,
                used + 1 + w₁.length + 2 + w₂.length + bracePatChars.length)
            else none
          | _ => none
      | _ => none
    match cs.drop ds.length with
    | '.' :: r₀ =>
      let fs := r₀.takeWhile Char.isDigit
      if fs = [] then none
      else step (ds ++ '.' :: fs) (r₀.drop fs.length) (ds.length + 1 + fs.length)
    | r₀ => step ds r₀ ds.length

/-- `re.sub` scan: leftmost non-overlapping matches replaced, one
character copied on failure.  `fuel = cs.length` is exact. -/
def reSubScan (m : List Char → Option (String × ℕ)) (repl : String → String) :
    ℕ → List Char → String
  | 0, cs => String.mk cs
  | _, [] => ""
  | fuel + 1, c :: r =>
    match m (c :: r) with
    | some (g, n) => repl g ++ reSubScan m repl fuel ((c :: r).drop (max n 1))
    | none => String.singleton c ++ reSubScan m repl fuel r

/-- `convert_progress_syntax` (src/timecalc.py:500-513). -/
def convert_progress_syntax (expression : String) : String :=
  let s₁ := reSubScan atPatAt
    (fun g => "progress(\x7bduration_pattern\x7d, " ++ g ++ "%)")
    expression.toList.length expression.toList
  reSubScan inPatAt
    (fun g => "progress(\x7bduration_pattern\x7d, " ++ g ++ "%)")
    s₁.toList.length s₁.toList

/-! ### `now` substitution and `strftime` -/

def padNum (width : ℕ) (n : ℤ) : String :=
  let s := toString n.toNat
  String.mk (List.replicate (width - s.length) '0') ++ s

/-- `datetime.strftime("%Y-%m-%d %H:%M:%S")` of an instant. -/
def strftimeCanon (t : ℚ) : String :=
  let day := ⌊t / 86400⌋
  let tod := t - 86400 * (day : ℚ)
  let (y, m, d) := civilFromDays (day + days1900)
  padNum 4 y ++ "-" ++ padNum 2 m ++ "-" ++ padNum 2 d ++ " "
    ++ padNum 2 ⌊tod / 3600⌋ ++ ":" ++ padNum 2 (⌊tod / 60⌋ % 60) ++ ":" ++ padNum 2 (⌊tod⌋ % 60)

/-- `re.sub(r'\bnow\b', nowStr, e, flags=re.IGNORECASE)`: replace each
whole-word case-insensitive `now`.  `prev` is the character before the
scan position (for the left word boundary). -/
def subNowList (nowStr : String) : Option Char → List Char → String
  | prev, c₁ :: c₂ :: c₃ :: r =>
    if ciEq c₁ 'n' && ciEq c₂ 'o' && ciEq c₃ 'w'
        && (match prev with | some p => !pyWordChar p | none => true)
        && (match r with | c₄ :: _ => !pyWordChar c₄ | [] => true) then
      nowStr ++ subNowList nowStr (some c₃) r
    else String.singleton c₁ ++ subNowList nowStr (some c₁) (c₂ :: c₃ :: r)
  | _, cs => String.mk cs

/-- The `now`-substitution step of `parse_and_calculate`
(src/timecalc.py:472-475): a clock read happens iff the lowercased
expression contains the substring `now`. -/
def substitute_now (c : Clock) (k : ℕ) (e : String) : String × ℕ :=
  if containsSub (pyLower e) "now" then
    (subNowList (strftimeCanon (c k)) none e.toList, k + 1)
  else (e, k)

/-! ### `parse_and_calculate` -/

def liftV : VRes × ℕ → EvalResult × ℕ
  | (.ok v, k) => (.okV v, k)
  | (.err e, k) => (.err e, k)

/-- `parse_and_calculate` (src/timecalc.py:467-498). -/
def parse_and_calculate (c : Clock) (k : ℕ) (expression : String) : EvalResult × ℕ :=
  let e₁ := pyStrip ((expression.replace "\n" " ").replace "\r" "")
  let (e₂, k₁) := substitute_now c k e₁
  match rate_split (pyStrip e₂) with
  | some (g₁, g₂, g₃) => (calculate_data_rate g₁ g₂ g₃, k₁)
  | none =>
    let e₃ := convert_progress_syntax e₂
    if is_progress_function e₃ then liftV (calculate_progress c k₁ e₃)
    else
      let ts := tokenize e₃
      if ts.length < 3 then
        if ts.length = 1 ∧ is_progress_function (ts.headD "") then
          liftV (calculate_progress c k₁ (ts.headD ""))
        else (.err "Expression must contain at least one operator", k₁)
      else liftV (evaluate_tokens c k₁ ts)

/-! ### Claim-side definitions and concrete clocks -/

/-- The claim's (C10) notion of a `(number)(recognized-unit)` group
occurring anywhere in the text: some digit immediately followed by one
of the unit letters `y`, `w`, `d`, `h`, `s`, `m` (a digit before `m` is
a group whether or not `o` follows: either the minute pattern `m(?!o)`
or the month pattern `mo` applies). -/
def hasDurationGroup : List Char → Bool
  | c₁ :: c₂ :: r =>
    (c₁.isDigit && (c₂ = 'y' || c₂ = 'w' || c₂ = 'd' || c₂ = 'h' || c₂ = 's' || c₂ = 'm'))
      || hasDurationGroup (c₂ :: r)
  | _ => false

/-- Does the token list start with an operand that parses as a Duration,
a `+`, and an operand that parses as an Instant (the configuration in
which `evaluate_tokens` returns early)? -/
def special_seed (c : Clock) (k : ℕ) : List String → Bool
  | t₀ :: t₁ :: t₂ :: _ =>
    t₁ = "+" &&
      (match parse_value c k t₀ with
       | (.ok (.duration _), k₁) =>
         (match parse_value c k₁ t₂ with
          | (.ok (.instant _), _) => true
          | _ => false)
       | _ => false)
  | _ => false

/-- Some duration-unit pattern of `parse_duration` matches at the head
of the list. -/
def anyUnitMatcher (l : List Char) : Prop :=
  (unitMatchAt 'y' false l).isSome = true ∨ (moMatchAt l).isSome = true
    ∨ (unitMatchAt 'w' false l).isSome = true ∨ (unitMatchAt 'd' false l).isSome = true
    ∨ (unitMatchAt 'h' false l).isSome = true ∨ (unitMatchAt 'm' true l).isSome = true
    ∨ (unitMatchAt 's' false l).isSome = true

/-- A frozen clock: every read returns the sentinel epoch. -/
def clockZero : Clock := fun _ => 0

/-- A clock advancing one day per read, so distinct reads are distinct. -/
def clockDaily : Clock := fun n => (n : ℚ) * 86400

/-! ## Theorems -/

/-- An instant whose date is the sentinel date has its whole seconds
value inside the first day, so its time-of-day offset is itself. -/
theorem todOf_of_onEpochDate {b : ℚ} (h : onEpochDate b) : todOf b = b := by
  unfold todOf
  unfold onEpochDate at h
  rw [h]
  push_cast
  ring

/-- C1: the code never performs the rewrites the claim describes.  The
`at_pattern`/`in_pattern` strings of `convert_progress_syntax` are not
f-strings, so `{duration_pattern}` stays literal and neither
`1h15s@15%` nor `15% in 1h15s` is rewritten; the whole evaluation then
fails with a missing-operator error, although the program's own examples
advertise both forms, and the canonical call the claim expects them to
become evaluates to Duration 24100 s. -/
theorem c1_progress_sugar_never_rewritten :
    convert_progress_syntax "1h15s@15%" = "1h15s@15%"
    ∧ convert_progress_syntax "15% in 1h15s" = "15% in 1h15s"
    ∧ parse_and_calculate clockZero 0 "1h15s@15%"
        = (.err "Expression must contain at least one operator", 0)
    ∧ parse_and_calculate clockZero 0 "15% in 1h15s"
        = (.err "Expression must contain at least one operator", 0)
    ∧ calculate_progress clockZero 0 "progress(1h15s, 15%)" = (.ok (.duration 24100), 0) := by
  refine ⟨?_, ?_, ?_, ?_, ?_⟩ <;> with_unfolding_all rfl

/-- C3: `add_values` on two Instants behaves symmetrically with respect
to the sentinel: a sentinel right operand contributes its time-of-day to
the left operand; a sentinel left operand likewise ends up contributing
its time-of-day to the right operand; with no sentinel the second
instant's offset from the sentinel epoch is added to the first. -/
theorem c3_add_instants_sentinel_symmetric (a b : ℚ) :
    (onEpochDate b →
      add_values (.instant a) (.instant b) = .ok (.instant (a + todOf b)))
    ∧ (onEpochDate a → ¬ onEpochDate b →
      add_values (.instant a) (.instant b) = .ok (.instant (b + todOf a)))
    ∧ (¬ onEpochDate a → ¬ onEpochDate b →
      add_values (.instant a) (.instant b) = .ok (.instant (a + (b - epoch1900)))) := by
  have hd : add_values (.instant a) (.instant b)
      = if onEpochDate b then VRes.ok (.instant (a + todOf b))
        else VRes.ok (.instant (a + (b - epoch1900))) := rfl
  refine ⟨fun hb => ?_, fun ha hb => ?_, fun _ hb => ?_⟩
  · rw [hd, if_pos hb]
  · rw [hd, if_neg hb, todOf_of_onEpochDate ha]
    unfold epoch1900
    ring_nf
  · rw [hd, if_neg hb]

/-- C3 witness: concrete instances of all three cases. -/
theorem c3_add_instants_sentinel_symmetric_witness :
    add_values (.instant 90000) (.instant 3600) = .ok (.instant (90000 + todOf 3600))
    ∧ add_values (.instant 3600) (.instant 90000) = .ok (.instant (90000 + todOf 3600))
    ∧ add_values (.instant 90000) (.instant 172800)
        = .ok (.instant (90000 + (172800 - epoch1900))) := by
  have h₁ : onEpochDate (3600 : ℚ) := by
    unfold onEpochDate; with_unfolding_all rfl
  have h₂ : ¬ onEpochDate (90000 : ℚ) := by
    unfold onEpochDate; intro h
    exact absurd h (by with_unfolding_all decide)
  have h₃ : ¬ onEpochDate (172800 : ℚ) := by
    unfold onEpochDate; intro h
    exact absurd h (by with_unfolding_all decide)
  exact ⟨(c3_add_instants_sentinel_symmetric 90000 3600).1 h₁,
    (c3_add_instants_sentinel_symmetric 3600 90000).2.1 h₁ h₂,
    (c3_add_instants_sentinel_symmetric 90000 172800).2.2 h₂ h₃⟩

/-- C7: `multiply_values` is commutative over Scalar and Duration — both
orders give a Duration of exactly `k * d.total_seconds()` seconds — and
every other pairing of value kinds fails with an error. -/
theorem c7_multiply_commutative (k d : ℚ) (a b : Val)
    (h : ∀ x y : ℚ, ¬ (a = .scalar x ∧ b = .duration y)
      ∧ ¬ (a = .duration x ∧ b = .scalar y)) :
    multiply_values (.scalar k) (.duration d) = .ok (.duration (k * d))
    ∧ multiply_values (.duration d) (.scalar k) = .ok (.duration (k * d))
    ∧ ∃ e, multiply_values a b = .err e := by
  refine ⟨?_, ?_, ?_⟩
  · show VRes.ok (.duration (d * k)) = .ok (.duration (k * d))
    rw [mul_comm]
  · show VRes.ok (.duration (d * k)) = .ok (.duration (k * d))
    rw [mul_comm]
  · cases a with
    | instant x => cases b <;> exact ⟨_, rfl⟩
    | duration x =>
      cases b with
      | scalar y => exact absurd ⟨rfl, rfl⟩ (h x y).2
      | instant _ => exact ⟨_, rfl⟩
      | duration _ => exact ⟨_, rfl⟩
    | scalar x =>
      cases b with
      | duration y => exact absurd ⟨rfl, rfl⟩ (h x y).1
      | instant _ => exact ⟨_, rfl⟩
      | scalar _ => exact ⟨_, rfl⟩

/-- C7 witness: `k = 2.5`, `d = 3 s`, and the Instant×Scalar pairing fails. -/
theorem c7_multiply_commutative_witness :
    multiply_values (.scalar (5 / 2)) (.duration 3) = .ok (.duration ((5 / 2) * 3))
    ∧ multiply_values (.duration 3) (.scalar (5 / 2)) = .ok (.duration ((5 / 2) * 3))
    ∧ ∃ e, multiply_values (.instant 0) (.scalar 1) = .err e :=
  c7_multiply_commutative (5 / 2) 3 (.instant 0) (.scalar 1)
    (fun _ _ => ⟨fun hc => Val.noConfusion hc.1, fun hc => Val.noConfusion hc.1⟩)

/-- C9 counterexample: in `tokenize "*2h"` the leading `*` is absorbed
into the operand (the accumulated operand is empty, so
`is_operator_here` refuses it), so not every `*` terminates an operand
and is emitted as its own operator token. -/
theorem c9_star_counterexample :
    tokenize "*2h" = ["*2h"]
    ∧ '*' ∈ "*2h".toList
    ∧ ("*2h" : String) ≠ "*" := by
  refine ⟨by with_unfolding_all rfl, by with_unfolding_all decide, by
    with_unfolding_all decide⟩

/-- C9 amended: a `*` scanned at parenthesis depth 0 with a nonempty
accumulated operand always terminates the operand and is emitted as an
operator token (no datetime or whitespace look-around applies to `*`);
a `*` with an empty accumulated operand, or inside parentheses, is
absorbed into the operand instead. -/
theorem c9_star_operator_amended (expression before : String) (st : TokSt) :
    (pyStrip before ≠ "" → is_operator_here expression before '*' = true)
    ∧ (pyStrip before = "" → is_operator_here expression before '*' = false)
    ∧ (st.depth = 0 → pyStrip st.current ≠ "" →
        tok_step expression st '*'
          = ⟨st.tokens ++ [pyStrip st.current, "*"], "", 0⟩)
    ∧ (st.depth = 0 → pyStrip st.current = "" →
        tok_step expression st '*' = ⟨st.tokens, st.current.push '*', st.depth⟩)
    ∧ (st.depth ≠ 0 →
        tok_step expression st '*' = ⟨st.tokens, st.current.push '*', st.depth⟩) := by
  have hop : ∀ b : String, pyStrip b ≠ "" → is_operator_here expression b '*' = true := by
    intro b hb
    unfold is_operator_here
    rw [if_neg hb, if_neg (by simp), if_pos rfl]
  have hop' : ∀ b : String, pyStrip b = "" → is_operator_here expression b '*' = false := by
    intro b hb
    unfold is_operator_here
    rw [if_pos hb]
  refine ⟨hop before, hop' before, fun hd hc => ?_, fun hd hc => ?_, fun hd => ?_⟩
  · unfold tok_step
    rw [if_neg (by simp), if_neg (by simp), if_pos ⟨by simp, hd⟩, if_pos (hop _ hc),
      if_pos hc, hd]
    simp only [List.append_assoc, List.singleton_append]
    have : String.singleton '*' = "*" := by decide
    rw [this]
  · unfold tok_step
    rw [if_neg (by simp), if_neg (by simp), if_pos ⟨by simp, hd⟩, if_neg (by simp [hop' _ hc])]
  · unfold tok_step
    rw [if_neg (by simp), if_neg (by simp), if_neg (by simp [hd])]

/-- C9 witness: with operand `x` accumulated at depth 0, `*` splits. -/
theorem c9_star_operator_amended_witness :
    is_operator_here "x*2" "x" '*' = true
    ∧ tok_step "x*2" ⟨[], "x", 0⟩ '*' = ⟨["x", "*"], "", 0⟩
    ∧ tok_step "(*" ⟨[], "(", 1⟩ '*' = ⟨[], "(*", 1⟩ := by
  refine ⟨(c9_star_operator_amended "x*2" "x" ⟨[], "x", 0⟩).1 (by with_unfolding_all decide),
    ?_, ?_⟩
  · have h := (c9_star_operator_amended "x*2" "x" ⟨[], "x", 0⟩).2.2.1 rfl
      (by with_unfolding_all decide)
    rw [h]
    with_unfolding_all rfl
  · have h := (c9_star_operator_amended "(*" "" ⟨[], "(", 1⟩).2.2.2.2 (by decide)
    rw [h]
    with_unfolding_all rfl

/-- C5: `calculate_progress` computes `total = elapsed / (percent/100)`
for the default/`total` mode, `total - elapsed` for `remaining`, and a
fresh current instant plus the remaining duration for `eta`; a
percentage outside the open interval (0, 100) is rejected; and
`progress(1h15s, 15%)` is a Duration of exactly 24100 seconds. -/
theorem c5_progress_modes (c : Clock) (k : ℕ) (s g₁ : String) (p : ℚ)
    (m : Option String) (es : ℚ)
    (hm : progress_match s = some (g₁, p, m)) :
    (0 < p ∧ p < 100 → parse_duration (pyStrip g₁) = .ok es →
      (pyLower (m.getD "total") = "total" →
        calculate_progress c k s = (.ok (.duration (es / (p / 100))), k))
      ∧ (pyLower (m.getD "total") = "remaining" →
        calculate_progress c k s = (.ok (.duration (es / (p / 100) - es)), k))
      ∧ (pyLower (m.getD "total") = "eta" →
        calculate_progress c k s = (.ok (.instant (c k + (es / (p / 100) - es))), k + 1)))
    ∧ (¬ (0 < p ∧ p < 100) →
      calculate_progress c k s = (.err "Percentage must be between 0 and 100", k))
    ∧ calculate_progress clockZero 0 "progress(1h15s, 15%)" = (.ok (.duration 24100), 0) := by
  unfold calculate_progress
  rw [hm]
  dsimp only
  refine ⟨fun hp hd => ?_, fun hp => ?_, by with_unfolding_all rfl⟩
  · rw [if_neg (not_not_intro hp), hd]
    dsimp only
    refine ⟨fun hmode => ?_, fun hmode => ?_, fun hmode => ?_⟩ <;> rw [hmode]
    · rfl
    · rw [if_neg (by decide), if_pos rfl]
    · rw [if_neg (by decide), if_neg (by decide), if_pos rfl]
  · rw [if_pos hp]

/-- C5 witness: `progress(2h30m45s, 35%, remaining)` and an out-of-range
percentage. -/
theorem c5_progress_modes_witness :
    calculate_progress clockZero 0 "progress(2h30m45s, 35%, remaining)"
      = (.ok (.duration ((9045 : ℚ) / (35 / 100) - 9045)), 0)
    ∧ calculate_progress clockZero 0 "progress(1h, 150%)"
      = (.err "Percentage must be between 0 and 100", 0) := by
  constructor
  · exact ((c5_progress_modes clockZero 0 "progress(2h30m45s, 35%, remaining)"
      "2h30m45s" 35 (some "remaining") 9045 (by with_unfolding_all rfl)).1
      (by norm_num) (by with_unfolding_all rfl)).2.1 (by with_unfolding_all rfl)
  · exact (c5_progress_modes clockZero 0 "progress(1h, 150%)" "1h" 150 none 3600
      (by with_unfolding_all rfl)).2.1 (by norm_num)

/-- C6: `calculate_data_rate` yields a RateResult with
`rate = transferred / elapsed` and `total_time = target / rate`,
carrying the three parsed inputs; a non-positive elapsed time or byte
quantity is an error; and `2h30m @ 1.5GB -> 10GB` gives a total time of
exactly 60000 seconds through the whole pipeline. -/
theorem c6_rate_calculation (e t₁ t₂ : String) (es b₁ b₂ : ℚ)
    (he : parse_duration (pyStrip e) = .ok es)
    (h₁ : parse_data_amount (pyStrip t₁) = .ok b₁)
    (h₂ : parse_data_amount (pyStrip t₂) = .ok b₂) :
    (0 < es → 0 < b₁ → 0 < b₂ →
      calculate_data_rate e t₁ t₂ = .okRate ⟨b₂ / (b₁ / es), b₁ / es, es, b₁, b₂⟩)
    ∧ (es ≤ 0 → calculate_data_rate e t₁ t₂
        = .err "Data rate calculation error: Elapsed time must be positive")
    ∧ (0 < es → b₁ ≤ 0 → calculate_data_rate e t₁ t₂
        = .err "Data rate calculation error: Data amount must be positive")
    ∧ (0 < es → 0 < b₁ → b₂ ≤ 0 → calculate_data_rate e t₁ t₂
        = .err "Data rate calculation error: Total data amount must be positive")
    ∧ parse_and_calculate clockZero 0 "2h30m @ 1.5GB -> 10GB"
        = (.okRate ⟨60000, 500000 / 3, 9000, 1500000000, 10000000000⟩, 0) := by
  unfold calculate_data_rate
  rw [he, h₁, h₂]
  dsimp only
  refine ⟨fun hes hb₁ hb₂ => ?_, fun hes => ?_, fun hes hb₁ => ?_,
    fun hes hb₁ hb₂ => ?_, by with_unfolding_all rfl⟩
  · rw [if_neg (not_le.mpr hes), if_neg (not_le.mpr hb₁), if_neg (not_le.mpr hb₂)]
  · rw [if_pos hes]
    decide
  · rw [if_neg (not_le.mpr hes), if_pos hb₁]
    decide
  · rw [if_neg (not_le.mpr hes), if_neg (not_le.mpr hb₁), if_pos hb₂]
    decide

/-- C6 witness: the worked example and a zero-byte error case. -/
theorem c6_rate_calculation_witness :
    calculate_data_rate "2h30m" "1.5GB" "10GB"
      = .okRate ⟨(10000000000 : ℚ) / ((1500000000 : ℚ) / 9000),
          (1500000000 : ℚ) / 9000, 9000, 1500000000, 10000000000⟩
    ∧ calculate_data_rate "2h30m" "0GB" "10GB"
      = .err "Data rate calculation error: Data amount must be positive" := by
  constructor
  · exact (c6_rate_calculation "2h30m" "1.5GB" "10GB" 9000 1500000000 10000000000
      (by with_unfolding_all rfl) (by with_unfolding_all rfl)
      (by with_unfolding_all rfl)).1 (by norm_num) (by norm_num) (by norm_num)
  · exact (c6_rate_calculation "2h30m" "0GB" "10GB" 9000 0 10000000000
      (by with_unfolding_all rfl) (by with_unfolding_all rfl)
      (by with_unfolding_all rfl)).2.2.1 (by norm_num) (by norm_num)

/-- C8: the decimal fallback of `parse_datetime` rejects out-of-range
components — minutes or seconds at least 60, an hour outside 1–12 with a
meridiem, an hour at least 24 without one — instead of wrapping, and
maps the meridiem as claimed: hour 12 with `am` becomes 0, 12 with `pm`
stays 12, other hours gain 12 with `pm`; in particular `12:00am` parses
to hour 0 and `12:00pm` to hour 12 through the whole `parse_datetime`. -/
theorem c8_decimal_fallback_bounds (h mi : ℕ) (sf : ℚ) (ap : Option Bool) :
    (60 ≤ mi ∨ 60 ≤ sf → decimal_build h mi sf ap = .err "Invalid time")
    ∧ (mi < 60 → sf < 60 → ap ≠ none → ¬ (1 ≤ h ∧ h ≤ 12) →
      decimal_build h mi sf ap = .err "Invalid 12-hour format")
    ∧ (mi < 60 → sf < 60 → 24 ≤ h →
      decimal_build h mi sf none = .err "Invalid 24-hour format")
    ∧ (mi < 60 → sf < 60 →
      decimal_build 12 mi sf (some false) = .ok (decSecs 0 mi sf))
    ∧ (mi < 60 → sf < 60 →
      decimal_build 12 mi sf (some true) = .ok (decSecs 12 mi sf))
    ∧ (mi < 60 → sf < 60 → 1 ≤ h → h ≤ 11 →
      decimal_build h mi sf (some true) = .ok (decSecs (h + 12) mi sf))
    ∧ (mi < 60 → sf < 60 → 1 ≤ h → h ≤ 12 → h ≠ 12 →
      decimal_build h mi sf (some false) = .ok (decSecs h mi sf))
    ∧ parse_datetime "12:00am" = .ok 0
    ∧ parse_datetime "12:00pm" = .ok 43200 := by
  refine ⟨fun hb => ?_, fun hm hs hap hh => ?_, fun hm hs hh => ?_, fun hm hs => ?_,
    fun hm hs => ?_, fun hm hs h₁ h₂ => ?_, fun hm hs h₁ h₂ h₃ => ?_,
    by with_unfolding_all rfl, by with_unfolding_all rfl⟩
  · unfold decimal_build
    rw [if_pos hb]
  · cases ap with
    | none => exact absurd rfl hap
    | some b =>
      unfold decimal_build
      rw [if_neg (by push_neg; exact ⟨hm, hs⟩)]
      dsimp only
      rw [if_pos hh]
  · unfold decimal_build
    rw [if_neg (by push_neg; exact ⟨hm, hs⟩)]
    dsimp only
    rw [if_pos hh]
  · unfold decimal_build
    rw [if_neg (by push_neg; exact ⟨hm, hs⟩)]
    dsimp only
    rw [if_neg (by norm_num), if_neg (by simp), if_pos (by simp)]
  · unfold decimal_build
    rw [if_neg (by push_neg; exact ⟨hm, hs⟩)]
    dsimp only
    rw [if_neg (by norm_num), if_neg (by simp), if_neg (by simp)]
  · unfold decimal_build
    rw [if_neg (by push_neg; exact ⟨hm, hs⟩)]
    dsimp only
    rw [if_neg (not_not_intro ⟨h₁, by omega⟩), if_pos ⟨rfl, by omega⟩]
  · unfold decimal_build
    rw [if_neg (by push_neg; exact ⟨hm, hs⟩)]
    dsimp only
    rw [if_neg (not_not_intro ⟨h₁, h₂⟩), if_neg (by simp), if_neg (by simp [h₃])]

/-- C8 witness: out-of-range minutes fail; `11:30pm` maps to hour 23. -/
theorem c8_decimal_fallback_bounds_witness :
    decimal_build 10 99 0 none = .err "Invalid time"
    ∧ decimal_build 11 30 0 (some true) = .ok (decSecs 23 30 0)
    ∧ decimal_build 25 0 0 none = .err "Invalid 24-hour format" := by
  refine ⟨(c8_decimal_fallback_bounds 10 99 0 none).1 (Or.inl (by norm_num)), ?_, ?_⟩
  · have := (c8_decimal_fallback_bounds 11 30 0 (some true)).2.2.2.2.2.1
      (by norm_num) (by norm_num) (by norm_num) (by norm_num)
    simpa using this
  · exact (c8_decimal_fallback_bounds 25 0 0 none).2.2.1 (by norm_num) (by norm_num)
      (by norm_num)

/-- `parse_value` leaves the read counter unchanged unless it takes the
`now` branch, whose result is an Instant. -/
theorem parse_value_count_of_not_instant {c : Clock} {k : ℕ} {s : String} {v : Val} {k' : ℕ}
    (h : parse_value c k s = (.ok v, k')) (hv : ∀ t, v ≠ .instant t) : k' = k := by
  unfold parse_value at h
  dsimp only at h
  split at h
  · rw [Prod.mk.injEq] at h
    obtain ⟨hv', -⟩ := h
    cases hv'
    exact absurd rfl (hv (c k))
  · split at h
    · rw [Prod.mk.injEq] at h
      exact h.2.symm
    · split at h <;> split at h <;>
        (rw [Prod.mk.injEq] at h; exact h.2.symm)

/-- C2 counterexample: on the well-formed alternating sequence
`3s + 4:30pm + 1h` the evaluator returns after the first pair (16:30:03)
instead of applying the remaining `+ 1h` pair, which the spec's
left-to-right walk would (17:30:03). -/
theorem c2_left_fold_counterexample :
    evaluate_tokens clockZero 0 ["3s", "+", "4:30pm", "+", "1h"]
      = (.ok (.instant 59403), 0)
    ∧ evaluate_tokens_spec clockZero 0 ["3s", "+", "4:30pm", "+", "1h"]
      = (.ok (.instant 63003), 0)
    ∧ VRes.ok (Val.instant 59403) ≠ .ok (.instant 63003) := by
  refine ⟨by with_unfolding_all rfl, by with_unfolding_all rfl, ?_⟩
  intro h
  injection h with h
  injection h with h
  exact absurd h (by with_unfolding_all decide)

/-- C2 amended: the evaluator applies every subsequent (operator,
operand) pair left to right *except* when the first operand parses as a
Duration, the first operator is `+`, and the second operand parses as
an Instant: then it returns that Instant plus the Duration immediately
and every remaining pair is skipped.  In all other configurations it
agrees with the spec's pairwise walk. -/
theorem c2_pairwise_walk_amended (c : Clock) (k : ℕ) (ts : List String) :
    (∀ t₀ t₂ rest d b k₁ k₂,
      ts = t₀ :: "+" :: t₂ :: rest →
      parse_value c k t₀ = (.ok (.duration d), k₁) →
      parse_value c k₁ t₂ = (.ok (.instant b), k₂) →
      evaluate_tokens c k ts = (.ok (.instant (b + d)), k₂))
    ∧ (special_seed c k ts = false →
      evaluate_tokens c k ts = evaluate_tokens_spec c k ts) := by
  constructor
  · intro t₀ t₂ rest d b k₁ k₂ hts h₀ h₂
    subst hts
    unfold evaluate_tokens
    dsimp only
    rw [if_neg (by
      rintro ⟨-, hstar⟩
      have hs : firstIsStar ("+" :: t₂ :: rest) = false := by with_unfolding_all rfl
      rw [hs] at hstar
      exact Bool.noConfusion hstar), h₀]
    dsimp only
    rw [if_pos rfl, h₂]
  · intro hsp
    cases ts with
    | nil => rfl
    | cons t₀ rest =>
      unfold evaluate_tokens evaluate_tokens_spec
      dsimp only
      by_cases hnum : is_number t₀ = true ∧ firstIsStar rest = true
      · rw [if_pos hnum, if_pos hnum]
      · rw [if_neg hnum, if_neg hnum]
        rcases hp : parse_value c k t₀ with ⟨r₀, k₁⟩
        cases r₀ with
        | err e => rfl
        | ok first =>
          dsimp only
          cases first with
          | instant t => rfl
          | scalar x => rfl
          | duration d =>
            cases rest with
            | nil => rfl
            | cons t₁ rest₁ =>
              cases rest₁ with
              | nil => rfl
              | cons t₂ rest₂ =>
                by_cases ht₁ : t₁ = "+"
                · subst ht₁
                  dsimp only
                  rw [if_pos rfl]
                  rcases hp₂ : parse_value c k₁ t₂ with ⟨r₂, k₂⟩
                  cases r₂ with
                  | err e =>
                    rw [show eval_pairs c k₁ (Val.duration d) ("+" :: t₂ :: rest₂)
                        = (match parse_value c k₁ t₂ with
                           | (.err e', k') => (.err e', k')
                           | (.ok v, k') =>
                             (match apply_op "+" (.duration d) v with
                              | .err e' => (.err e', k')
                              | .ok r₃ => eval_pairs c k' r₃ rest₂)) from rfl, hp₂]
                  | ok v =>
                    cases v with
                    | instant b =>
                      exfalso
                      have : special_seed c k (t₀ :: "+" :: t₂ :: rest₂) = true := by
                        unfold special_seed
                        dsimp only
                        rw [hp]
                        dsimp only
                        rw [hp₂]
                        with_unfolding_all rfl
                      rw [this] at hsp
                      exact Bool.noConfusion hsp
                    | duration x =>
                      have hk : k₂ = k₁ :=
                        parse_value_count_of_not_instant hp₂ (fun t ht => Val.noConfusion ht)
                      rw [hk]
                    | scalar x =>
                      have hk : k₂ = k₁ :=
                        parse_value_count_of_not_instant hp₂ (fun t ht => Val.noConfusion ht)
                      rw [hk]
                · dsimp only
                  rw [if_neg ht₁]

/-- C2 witness: the amended special case at `3s + 4:30pm` and the
agreement with the spec's walk on `1h + 2h + 3h`. -/
theorem c2_pairwise_walk_amended_witness :
    evaluate_tokens clockZero 0 ["3s", "+", "4:30pm"] = (.ok (.instant (59400 + 3)), 0)
    ∧ evaluate_tokens clockZero 0 ["1h", "+", "2h", "+", "3h"]
      = evaluate_tokens_spec clockZero 0 ["1h", "+", "2h", "+", "3h"] := by
  constructor
  · exact (c2_pairwise_walk_amended clockZero 0 ["3s", "+", "4:30pm"]).1
      "3s" "4:30pm" [] 3 59400 0 0 rfl (by with_unfolding_all rfl)
      (by with_unfolding_all rfl)
  · exact (c2_pairwise_walk_amended clockZero 0 ["1h", "+", "2h", "+", "3h"]).2
      (by with_unfolding_all rfl)

/-- C4 counterexample: on `progress(1know2h, 50%, eta)` (the substring
`now` of `1know2h` triggers the rewrite-time clock read, but no
whole-word `now` is substituted) the engine reads the clock twice, and
the ETA is based on the second, later read — not the instant sampled at
the start of sugar rewriting, and not a single read per call. -/
theorem c4_eta_clock_counterexample :
    parse_and_calculate clockDaily 0 "progress(1know2h, 50%, eta)"
      = (.okV (.instant (clockDaily 1 + 7200)), 2)
    ∧ clockDaily 1 + 7200 ≠ clockDaily 0 + 7200
    ∧ (2 : ℕ) ≠ 1 := by
  refine ⟨by with_unfolding_all rfl, ?_, by decide⟩
  intro h
  have : clockDaily 1 = clockDaily 0 := by linarith
  rw [show clockDaily 1 = 86400 from by norm_num [clockDaily],
    show clockDaily 0 = 0 from by norm_num [clockDaily]] at this
  exact absurd this (by norm_num)

/-- C4 amended: within one `parse_and_calculate` call the clock is read
at most twice, not exactly once: once during sugar rewriting iff the
lowercased expression contains the substring `now` (that sample is the
one substituted for whole-word `now` occurrences), and once more inside
`calculate_progress` when an `eta`-mode progress computation is
reached; the ETA base is that second, independent read at the current
counter — whatever the counter is — not the rewrite-time sample. -/
theorem c4_now_sampling_amended (c : Clock) (k : ℕ) :
    (∀ e : String, (substitute_now c k e).2
      = k + (if containsSub (pyLower e) "now" = true then 1 else 0))
    ∧ (∀ s g₁ p m es, progress_match s = some (g₁, p, m) →
      pyLower (m.getD "total") = "eta" → 0 < p → p < 100 →
      parse_duration (pyStrip g₁) = .ok es →
      calculate_progress c k s = (.ok (.instant (c k + (es / (p / 100) - es))), k + 1)) := by
  constructor
  · intro e
    unfold substitute_now
    split
    · next hc => simp [hc]
    · next hc => simp [hc]
  · intro s g₁ p m es hm hmode hp₁ hp₂ hd
    unfold calculate_progress
    rw [hm]
    dsimp only
    rw [if_neg (not_not_intro ⟨hp₁, hp₂⟩), hd]
    dsimp only
    rw [hmode, if_neg (by decide), if_neg (by decide), if_pos rfl]

/-- C4 witness: no read without `now`; the ETA base is the read at
counter 3 when `calculate_progress` runs with counter 3. -/
theorem c4_now_sampling_amended_witness :
    (substitute_now clockDaily 0 "1h + 2h").2
      = 0 + (if containsSub (pyLower "1h + 2h") "now" = true then 1 else 0)
    ∧ calculate_progress clockDaily 3 "progress(2h, 50%, eta)"
      = (.ok (.instant (clockDaily 3 + ((7200 : ℚ) / (50 / 100) - 7200))), 4) := by
  constructor
  · exact (c4_now_sampling_amended clockDaily 0).1 "1h + 2h"
  · exact (c4_now_sampling_amended clockDaily 3).2 "progress(2h, 50%, eta)"
      "2h" 50 (some "eta") 7200 (by with_unfolding_all rfl) (by with_unfolding_all rfl)
      (by norm_num) (by norm_num) (by with_unfolding_all rfl)

/-! #### Lemmas for C10: `parse_duration` errs iff no duration group occurs -/

theorem drop_takeWhile_length (p : Char → Bool) (l : List Char) :
    l.drop (l.takeWhile p).length = l.dropWhile p := by
  induction l with
  | nil => rfl
  | cons a t ih =>
    by_cases h : p a
    · simp [List.takeWhile_cons, List.dropWhile_cons, h, ih]
    · simp [List.takeWhile_cons, List.dropWhile_cons, h]

theorem takeWhile_take (p : Char → Bool) (l : List Char) :
    l.take (l.takeWhile p).length = l.takeWhile p := by
  nth_rewrite 2 [← List.takeWhile_append_dropWhile (p := p) (l := l)]
  exact List.take_left _ _

theorem takeWhile_append_drop (p : Char → Bool) (l : List Char) :
    l.takeWhile p ++ l.drop (l.takeWhile p).length = l := by
  conv_rhs => rw [← List.take_append_drop (l.takeWhile p).length l]
  rw [takeWhile_take]

/-- Splitting off the last element of a middle block. -/
theorem eq_append_dropLast_getLast {P F D l : List Char} (h : P ++ F ++ D = l)
    (hF : F ≠ []) :
    l = (P ++ F.dropLast) ++ F.getLast hF :: D := by
  rw [← h]
  conv_lhs => rw [show F = F.dropLast ++ [F.getLast hF]
    from (List.dropLast_append_getLast hF).symm]
  simp

/-- A successful `numberAt` consumes a block ending in a digit. -/
theorem numberAt_decomp {l : List Char} {q : ℚ} {n : ℕ}
    (h : numberAt l = some (q, n)) :
    ∃ pre a, a.isDigit = true ∧ l = pre ++ a :: l.drop n := by
  unfold numberAt at h
  by_cases hds : l.takeWhile Char.isDigit = []
  · rw [if_pos hds] at h
    exact absurd h (by simp)
  · rw [if_neg hds] at h
    have hA : n = (l.takeWhile Char.isDigit).length →
        ∃ pre a, a.isDigit = true ∧ l = pre ++ a :: l.drop n := by
      intro hn
      subst hn
      refine ⟨[] ++ (l.takeWhile Char.isDigit).dropLast,
        (l.takeWhile Char.isDigit).getLast hds,
        List.mem_takeWhile_imp (List.getLast_mem hds),
        eq_append_dropLast_getLast ?_ hds⟩
      rw [List.nil_append]
      exact takeWhile_append_drop Char.isDigit l
    split at h
    · next r₂ heq =>
      by_cases hfs : r₂.takeWhile Char.isDigit = []
      · rw [if_pos hfs, Option.some.injEq, Prod.mk.injEq] at h
        exact hA h.2.symm
      · rw [if_neg hfs, Option.some.injEq, Prod.mk.injEq] at h
        obtain ⟨-, hn⟩ := h
        have hl : l = l.takeWhile Char.isDigit ++ '.' :: r₂ := by
          conv_lhs => rw [← takeWhile_append_drop Char.isDigit l]
          rw [heq]
        have hr₂ := takeWhile_append_drop Char.isDigit r₂
        have hdrop : l.drop n = r₂.drop (r₂.takeWhile Char.isDigit).length := by
          rw [← hn, show (l.takeWhile Char.isDigit).length + 1
                + (r₂.takeWhile Char.isDigit).length
              = (l.takeWhile Char.isDigit).length + ((r₂.takeWhile Char.isDigit).length + 1)
            by omega]
          set k := (l.takeWhile Char.isDigit).length with hk
          conv_lhs => rw [hl]
          rw [hk, List.drop_append ((r₂.takeWhile Char.isDigit).length + 1),
            List.drop_succ_cons]
        refine ⟨(l.takeWhile Char.isDigit ++ ['.']) ++ (r₂.takeWhile Char.isDigit).dropLast,
          (r₂.takeWhile Char.isDigit).getLast hfs,
          List.mem_takeWhile_imp (List.getLast_mem hfs), ?_⟩
        rw [hdrop]
        refine eq_append_dropLast_getLast ?_ hfs
        rw [List.append_assoc, List.append_assoc, List.singleton_append, hr₂]
        exact hl.symm
    · next heq =>
      rw [Option.some.injEq, Prod.mk.injEq] at h
      exact hA h.2.symm

/-- A successful single-letter unit match exhibits a digit directly
followed by the unit letter. -/
theorem unit_some_decomp {u : Char} {noO : Bool} {l : List Char} {p : ℚ × ℕ}
    (h : unitMatchAt u noO l = some p) :
    ∃ pre a rest, a.isDigit = true ∧ l = pre ++ a :: u :: rest := by
  unfold unitMatchAt at h
  split at h
  · exact absurd h (by simp)
  · next q n hnum =>
    split at h
    · next c r hdrop =>
      by_cases hc : c = u
      · subst hc
        obtain ⟨pre, a, ha, hl⟩ := numberAt_decomp hnum
        exact ⟨pre, a, r, ha, by rw [hl, hdrop]⟩
      · rw [if_neg hc] at h
        exact absurd h (by simp)
    · exact absurd h (by simp)

/-- A successful `mo` match exhibits a digit directly followed by `m`. -/
theorem mo_some_decomp {l : List Char} {p : ℚ × ℕ} (h : moMatchAt l = some p) :
    ∃ pre a rest, a.isDigit = true ∧ l = pre ++ a :: 'm' :: rest := by
  unfold moMatchAt at h
  split at h
  · exact absurd h (by simp)
  · next q n hnum =>
    split at h
    · next r hdrop =>
      obtain ⟨pre, a, ha, hl⟩ := numberAt_decomp hnum
      exact ⟨pre, a, 'o' :: r, ha, by rw [hl, hdrop]⟩
    · exact absurd h (by simp)

/-- A successful fast-path hour match exhibits a digit before `h`. -/
theorem fast_some_decomp {l : List Char} {q : ℚ} (h : fastHourMatch l = some q) :
    ∃ pre a, a.isDigit = true ∧ l = pre ++ a :: 'h' :: [] := by
  unfold fastHourMatch at h
  split at h
  · exact absurd h (by simp)
  · next q' n hnum =>
    split at h
    · next hdrop =>
      obtain ⟨pre, a, ha, hl⟩ := numberAt_decomp hnum
      exact ⟨pre, a, ha, by rw [hl, hdrop]⟩
    · exact absurd h (by simp)

/-- An adjacent digit-unit pair anywhere makes `hasDurationGroup` true. -/
theorem adj_group : ∀ (pre : List Char) (a b : Char) (rest : List Char),
    a.isDigit = true →
    (b = 'y' ∨ b = 'w' ∨ b = 'd' ∨ b = 'h' ∨ b = 's' ∨ b = 'm') →
    hasDurationGroup (pre ++ a :: b :: rest) = true := by
  intro pre
  induction pre with
  | nil =>
    intro a b rest ha hb
    unfold hasDurationGroup
    rw [List.nil_append, Bool.or_eq_true]
    left
    rw [Bool.and_eq_true]
    refine ⟨ha, ?_⟩
    rcases hb with h | h | h | h | h | h <;> subst h <;> decide
  | cons c pre' ih =>
    intro a b rest ha hb
    have h2 := ih a b rest ha hb
    cases hL : pre' ++ a :: b :: rest with
    | nil => exact absurd hL (by simp)
    | cons x xs =>
      rw [List.cons_append, hL]
      unfold hasDurationGroup
      rw [Bool.or_eq_true]
      right
      rw [← hL]
      exact h2

/-- `numberAt` takes exactly the head digit when the next character is
neither a digit nor a dot. -/
theorem numberAt_head_digit {c₁ c₂ : Char} {r : List Char} (hd : c₁.isDigit = true)
    (h2 : c₂.isDigit = false) (hdot : c₂ ≠ '.') :
    numberAt (c₁ :: c₂ :: r) = some ((natOfDigits [c₁] : ℚ), 1) := by
  unfold numberAt
  have hds : (c₁ :: c₂ :: r).takeWhile Char.isDigit = [c₁] := by
    rw [List.takeWhile_cons, if_pos hd, List.takeWhile_cons, if_neg (by simp [h2])]
  rw [hds, if_neg (by simp)]
  simp only [List.length_cons, List.length_nil, Nat.zero_add, List.drop_succ_cons,
    List.drop_zero]
  split
  · next r₂ heq =>
    exfalso
    injection heq with h₁ _
    exact hdot h₁
  · rfl

/-- If a duration group occurs, some unit matcher of `parse_duration`
succeeds at some position. -/
theorem group_scan_up : ∀ cs : List Char, hasDurationGroup cs = true →
    ∃ i, anyUnitMatcher (cs.drop i) := by
  intro cs
  induction cs with
  | nil => intro h; exact absurd h (by decide)
  | cons c₁ r ih =>
    cases r with
    | nil => intro h; simp [hasDurationGroup] at h
    | cons c₂ r₂ =>
      intro h
      unfold hasDurationGroup at h
      rw [Bool.or_eq_true] at h
      rcases h with h | h
      · rw [Bool.and_eq_true] at h
        obtain ⟨hd, hu⟩ := h
        simp only [Bool.or_eq_true, decide_eq_true_eq] at hu
        refine ⟨0, ?_⟩
        rw [List.drop_zero]
        rcases hu with ((((h | h) | h) | h) | h) | h <;> subst h
        · exact Or.inl (by
            unfold unitMatchAt
            rw [numberAt_head_digit hd (by decide) (by decide)]
            with_unfolding_all rfl)
        · exact Or.inr (Or.inr (Or.inl (by
            unfold unitMatchAt
            rw [numberAt_head_digit hd (by decide) (by decide)]
            with_unfolding_all rfl)))
        · exact Or.inr (Or.inr (Or.inr (Or.inl (by
            unfold unitMatchAt
            rw [numberAt_head_digit hd (by decide) (by decide)]
            with_unfolding_all rfl))))
        · exact Or.inr (Or.inr (Or.inr (Or.inr (Or.inl (by
            unfold unitMatchAt
            rw [numberAt_head_digit hd (by decide) (by decide)]
            with_unfolding_all rfl)))))
        · exact Or.inr (Or.inr (Or.inr (Or.inr (Or.inr (Or.inr (by
            unfold unitMatchAt
            rw [numberAt_head_digit hd (by decide) (by decide)]
            with_unfolding_all rfl))))))
        · -- c₂ = 'm': month matcher when `o` follows, minute matcher otherwise
          cases r₂ with
          | nil =>
            refine Or.inr (Or.inr (Or.inr (Or.inr (Or.inr (Or.inl ?_)))))
            unfold unitMatchAt
            rw [numberAt_head_digit hd (by decide) (by decide)]
            with_unfolding_all rfl
          | cons c₃ r₃ =>
            by_cases hc₃ : c₃ = 'o'
            · subst hc₃
              refine Or.inr (Or.inl ?_)
              unfold moMatchAt
              rw [numberAt_head_digit hd (by decide) (by decide)]
              with_unfolding_all rfl
            · refine Or.inr (Or.inr (Or.inr (Or.inr (Or.inr (Or.inl ?_)))))
              unfold unitMatchAt
              rw [numberAt_head_digit hd (by decide) (by decide)]
              with_unfolding_all show (match c₃ :: r₃ with
                | 'o' :: _ => none
                | _ => some ((natOfDigits [c₁] : ℚ), 1 + 1)).isSome = true
              split
              · next heq =>
                exfalso
                injection heq with h₁ _
                exact hc₃ h₁
              · rfl
      · obtain ⟨i, hi⟩ := ih h
        exact ⟨i + 1, by rwa [List.drop_succ_cons]⟩

/-- If the matcher succeeds at some position, the `re.findall` scan is
nonempty. -/
theorem scanAll_ne_nil_of_isSome {m : List Char → Option (ℚ × ℕ)} (hnil : m [] = none) :
    ∀ (cs : List Char) (fuel i : ℕ), cs.length ≤ fuel →
      (m (cs.drop i)).isSome = true → scanAll m fuel cs ≠ [] := by
  intro cs
  induction cs with
  | nil =>
    intro fuel i _ hi
    rw [List.drop_nil, hnil] at hi
    exact Bool.noConfusion hi
  | cons c r ih =>
    intro fuel i hlen hi
    cases fuel with
    | zero => simp at hlen
    | succ f =>
      unfold scanAll
      cases hm : m (c :: r) with
      | some p =>
        obtain ⟨q, n⟩ := p
        exact List.cons_ne_nil _ _
      | none =>
        show scanAll m f r ≠ []
        cases i with
        | zero =>
          rw [List.drop_zero, hm] at hi
          exact Bool.noConfusion hi
        | succ j =>
          rw [List.drop_succ_cons] at hi
          exact ih f j (by simpa using hlen) hi

/-- Conversely, a nonempty scan exhibits a successful match position. -/
theorem scanAll_exists_of_ne_nil {m : List Char → Option (ℚ × ℕ)} :
    ∀ (cs : List Char) (fuel : ℕ),
      scanAll m fuel cs ≠ [] → ∃ i, (m (cs.drop i)).isSome = true := by
  intro cs
  induction cs with
  | nil =>
    intro fuel h
    exact absurd (by cases fuel <;> rfl) h
  | cons c r ih =>
    intro fuel h
    cases fuel with
    | zero => exact absurd rfl h
    | succ f =>
      unfold scanAll at h
      cases hm : m (c :: r) with
      | some p =>
        exact ⟨0, by rw [List.drop_zero, hm]; rfl⟩
      | none =>
        rw [hm] at h
        obtain ⟨i, hi⟩ := ih f h
        exact ⟨i + 1, by rwa [List.drop_succ_cons]⟩

/-- Without a duration group, a single-unit scan over the text is empty. -/
theorem unit_scan_empty_of_no_group {u : Char}
    (hu : u = 'y' ∨ u = 'w' ∨ u = 'd' ∨ u = 'h' ∨ u = 's' ∨ u = 'm') (noO : Bool)
    {cs : List Char} (hg : hasDurationGroup cs = false) :
    scanAll (unitMatchAt u noO) cs.length cs = [] := by
  by_contra hne
  obtain ⟨i, hi⟩ := scanAll_exists_of_ne_nil cs cs.length hne
  rw [Option.isSome_iff_exists] at hi
  obtain ⟨p, hp⟩ := hi
  obtain ⟨pre, a, rest, ha, hl⟩ := unit_some_decomp hp
  have hG : hasDurationGroup cs = true := by
    conv_lhs => rw [← List.take_append_drop i cs]
    rw [hl, ← List.append_assoc]
    exact adj_group _ a u rest ha hu
  rw [hG] at hg
  exact Bool.noConfusion hg

/-- Without a duration group, the month scan is empty as well. -/
theorem mo_scan_empty_of_no_group {cs : List Char}
    (hg : hasDurationGroup cs = false) : scanAll moMatchAt cs.length cs = [] := by
  by_contra hne
  obtain ⟨i, hi⟩ := scanAll_exists_of_ne_nil cs cs.length hne
  rw [Option.isSome_iff_exists] at hi
  obtain ⟨p, hp⟩ := hi
  obtain ⟨pre, a, rest, ha, hl⟩ := mo_some_decomp hp
  have hG : hasDurationGroup cs = true := by
    conv_lhs => rw [← List.take_append_drop i cs]
    rw [hl, ← List.append_assoc]
    exact adj_group _ a 'm' rest ha (by decide)
  rw [hG] at hg
  exact Bool.noConfusion hg

/-- Without a duration group, the decimal-hours fast path fails too. -/
theorem fast_none_of_no_group {cs : List Char}
    (hg : hasDurationGroup cs = false) : fastHourMatch cs = none := by
  cases hf : fastHourMatch cs with
  | none => rfl
  | some q =>
    obtain ⟨pre, a, ha, hl⟩ := fast_some_decomp hf
    have hG : hasDurationGroup cs = true := by
      rw [hl]
      exact adj_group _ a 'h' [] ha (by decide)
    rw [hG] at hg
    exact Bool.noConfusion hg

/-- C10: `parse_duration` raises iff no `(number)(recognized-unit)` group
occurs anywhere in the lowercased, stripped text; other characters —
including unknown unit suffixes next to a valid group — are ignored and
the recognized groups are summed, and the empty string fails. -/
theorem c10_duration_error_iff (s : String) :
    ((∃ e, parse_duration s = .err e)
      ↔ hasDurationGroup (pyLower (pyStrip s)).toList = false)
    ∧ parse_duration "" = .err "Cannot parse duration: "
    ∧ parse_duration "1x2h" = .ok 7200
    ∧ parse_duration "1hour 30minutes" = .ok 5400 := by
  refine ⟨?_, by with_unfolding_all rfl, by with_unfolding_all rfl, by with_unfolding_all rfl⟩
  constructor
  · rintro ⟨e, he⟩
    by_contra hg
    rw [Bool.not_eq_false] at hg
    obtain ⟨i, hi⟩ := group_scan_up _ hg
    unfold parse_duration at he
    dsimp only at he
    split at he
    · exact absurd he (by simp)
    · split at he
      · next hcond =>
        obtain ⟨hy, hmo, hw, hd, hh, hm, hs'⟩ := hcond
        rcases hi with h | h | h | h | h | h | h
        · exact scanAll_ne_nil_of_isSome rfl _ _ i le_rfl h hy
        · exact scanAll_ne_nil_of_isSome rfl _ _ i le_rfl h hmo
        · exact scanAll_ne_nil_of_isSome rfl _ _ i le_rfl h hw
        · exact scanAll_ne_nil_of_isSome rfl _ _ i le_rfl h hd
        · exact scanAll_ne_nil_of_isSome rfl _ _ i le_rfl h hh
        · exact scanAll_ne_nil_of_isSome rfl _ _ i le_rfl h hm
        · exact scanAll_ne_nil_of_isSome rfl _ _ i le_rfl h hs'
      · exact absurd he (by simp)
  · intro hg
    refine ⟨"Cannot parse duration: " ++ pyLower (pyStrip s), ?_⟩
    unfold parse_duration
    dsimp only
    rw [fast_none_of_no_group hg]
    rw [if_pos ⟨unit_scan_empty_of_no_group (by decide) false hg,
      mo_scan_empty_of_no_group hg,
      unit_scan_empty_of_no_group (by decide) false hg,
      unit_scan_empty_of_no_group (by decide) false hg,
      unit_scan_empty_of_no_group (by decide) false hg,
      unit_scan_empty_of_no_group (by decide) true hg,
      unit_scan_empty_of_no_group (by decide) false hg⟩]

/-- C10 witness: a valid group beside junk parses; junk alone errs. -/
theorem c10_duration_error_iff_witness :
    ¬ (∃ e, parse_duration "1x2h" = .err e)
    ∧ (∃ e, parse_duration "qqq" = .err e) := by
  constructor
  · intro h
    exact absurd ((c10_duration_error_iff "1x2h").1.mp h) (by with_unfolding_all decide)
  · exact (c10_duration_error_iff "qqq").1.mpr (by with_unfolding_all rfl)

end Timecalc
